import Mathlib

/-!
Verification of the osu-db-parser binary codec and scoring analytics.

Shallow embedding of the binary decoders of the repository (`common.rs`,
`collections.rs`, `scores.rs`, `beatmaps.rs`) and the scoring analytics
(`ScoreReplay::accuracy`, `ScoreReplay::grade`).

Modelling conventions, used throughout:

* A byte buffer is a `List Nat`; each element is one byte (callers only ever
  supply values below 256, and every definition is total on all of `Nat`).
* A nom parser `&[u8] -> IResult<&[u8], T>` becomes `Parser T`, that is
  `List Nat → Except PError (List Nat × T)`, returning the unconsumed rest
  and the value exactly as nom does; `PError` mirrors the nom `ErrorKind`
  distinctions the sources produce.
* Rust `String` values are kept as their UTF-8 byte lists (`List Nat`),
  together with the same validity check `std::str::from_utf8` performs.
* `f32`/`f64` fields that the code merely stores are kept as their raw
  little-endian bit patterns (a `Nat`); no verified property reads them
  numerically.  The one place a byte is converted *to* a float
  (the pre-20140609 difficulty statistics of `beatmap_entry`) stores the exact
  IEEE-754 single-precision bit pattern of that byte value, which is exact
  for every byte.
* The `f64` arithmetic of `accuracy`/`grade` is modelled over `ℚ`.  All
  integer inputs involved are below 2^26, hence exactly representable, and
  no verified property depends on the sub-ulp rounding of the final division
  (the decimal threshold literals 0.9 etc. are modelled as the decimal
  rationals they denote).  Division by zero, which is NaN/∞ in `f64`, is the
  one point where `ℚ` (where `x / 0 = 0`) diverges; every theorem about
  `accuracy` therefore carries a nonzero-denominator hypothesis.
* `u16`/`u32`/`u64` arithmetic that can overflow in the source is modelled
  with the release-build twos-complement wrap (`% 2^16`, `% 2^64`);
  overflow-checked builds would panic instead, as noted at each site.
* `OffsetDateTime` timestamps are kept as the raw `u64` tick count read from
  the wire (`windows_datetime` reads a little-endian `u64` and converts; the
  conversion is not consulted by any claim).
-/

/-- Error kinds produced by the decoders, mirroring the nom `ErrorKind`
values the sources construct: `Eof` from truncated primitives, `Tag` from
literal marker bytes, `Switch` from closed-enum decoders, `MapRes` from
`map_res` (UTF-8 validation), `Fail` from `fail` (unrecognized string
marker). -/
inductive PError where
  | eof
  | tagErr
  | switchErr
  | mapResErr
  | failErr
deriving DecidableEq, Repr

/-- A nom parser over a byte buffer: returns the unconsumed rest and the
parsed value, or an error. -/
def Parser (α : Type) : Type := List Nat → Except PError (List Nat × α)

/-- Monadic sequencing of parsers, threading the unconsumed rest, exactly as
nom combinator chaining does. -/
def pbind {α β : Type} (p : Parser α) (f : α → Parser β) : Parser β := fun i =>
  match p i with
  | .ok (i', a) => f a i'
  | .error e => .error e

/-- A parser that consumes nothing and returns `a`. -/
def ppure {α : Type} (a : α) : Parser α := fun i => .ok (i, a)

instance : Monad Parser where
  pure := ppure
  bind := pbind

/-- A parser that always fails with error `e` (nom `fail`). -/
def pfail {α : Type} (e : PError) : Parser α := fun _ => .error e

/-- nom `u8`: consume one byte. -/
def pu8 : Parser Nat := fun i =>
  match i with
  | [] => .error .eof
  | b :: rest => .ok (rest, b)

/-- nom `take(n)`: consume exactly `n` bytes, failing if fewer remain. -/
def ptake (n : Nat) : Parser (List Nat) := fun i =>
  if n ≤ i.length then .ok (i.drop n, i.take n) else .error .eof

/-- nom `tag(bytes)`: consume exactly the literal bytes `t`. -/
def ptagBytes (t : List Nat) : Parser (List Nat) := fun i =>
  if i.take t.length = t then .ok (i.drop t.length, t) else .error .tagErr

/-- nom `cond(b, p)`: run `p` only when `b` holds, returning `some`/`none`
accordingly. -/
def pcond {α : Type} (b : Bool) (p : Parser α) : Parser (Option α) := fun i =>
  if b then
    match p i with
    | .ok (i', a) => .ok (i', some a)
    | .error e => .error e
  else .ok (i, none)

/-- nom `count`: run `p` exactly `n` times, collecting the results in
order. -/
def pcount {α : Type} (p : Parser α) : Nat → Parser (List α)
  | 0 => ppure []
  | n + 1 => do
    let x ← p
    let xs ← pcount p n
    ppure (x :: xs)

/-- nom `length_count(pn, p)`: read a count with `pn`, then that many
occurrences of `p`. -/
def plength_count {α : Type} (pn : Parser Nat) (p : Parser α) : Parser (List α) := do
  let n ← pn
  pcount p n

/-- nom `le_u16`: two bytes, little endian. -/
def le_u16 : Parser Nat := do
  let b0 ← pu8
  let b1 ← pu8
  ppure (b0 + 256 * b1)

/-- nom `le_u32`: four bytes, little endian. -/
def le_u32 : Parser Nat := do
  let b0 ← pu8
  let b1 ← pu8
  let b2 ← pu8
  let b3 ← pu8
  ppure (b0 + 256 * b1 + 65536 * b2 + 16777216 * b3)

/-- nom `le_u64`: eight bytes, little endian. -/
def le_u64 : Parser Nat := do
  let lo ← le_u32
  let hi ← le_u32
  ppure (lo + 4294967296 * hi)

/-- nom `le_f32`; the value is kept as the raw little-endian 32-bit
pattern. -/
def le_f32 : Parser Nat := le_u32

/-- nom `le_f64`; the value is kept as the raw little-endian 64-bit
pattern. -/
def le_f64 : Parser Nat := le_u64

/-- `common.rs` `boolean`: one byte; any non-zero byte is true. -/
def boolean : Parser Bool := do
  let byte ← pu8
  ppure (byte != 0)

/-- `common.rs` `windows_datetime`: reads a little-endian `u64` tick count.
The source converts ticks to an `OffsetDateTime`
(`epoch + ticks/10 µs + (ticks%10)*100 ns`); the timestamp is kept here as
the raw tick count, which that conversion determines. -/
def windows_datetime : Parser Nat := le_u64

/-! ## `common.rs`: ULEB128, strings, gameplay mode, modifiers -/

/-- The accumulation loop of `common.rs` `uleb128`: starting at bit offset
`shift`, OR each byte low 7 bits into a `u64` accumulator, advancing the
shift by 7 per byte (`result |= ((byte & 0x7F) as u64) << shift`).  The
`% 2 ^ 64` is the `u64` truncation of the shifted value; for a shift of 64
or more the Rust shift itself overflows (a panic in overflow-checked
builds), a regime no verified property exercises. -/
def ulebValue : List Nat → Nat → Nat
  | [], _ => 0
  | b :: bs, shift => ((b &&& 0x7F) <<< shift) % 2 ^ 64 ||| ulebValue bs (shift + 7)

/-- `common.rs` `uleb128`: take bytes while the high bit is set
(`byte & 0x80 > 1`), then one terminating byte, and accumulate the low
7 bits of all of them in little-endian order. -/
def uleb128 : Parser Nat := fun input =>
  match input.dropWhile (fun byte => decide (1 < byte &&& 0x80)) with
  | [] => .error .eof
  | uleb_final :: i' =>
    .ok (i',
      ulebValue (input.takeWhile (fun byte => decide (1 < byte &&& 0x80)) ++ [uleb_final]) 0)

/-- Whether a byte is a UTF-8 continuation byte (`0x80..=0xBF`). -/
def utf8Cont (b : Nat) : Bool := decide (0x80 ≤ b) && decide (b ≤ 0xBF)

/-- The UTF-8 validity check performed by `std::str::from_utf8` inside
`osu_string`: standard UTF-8 with the overlong, surrogate and > U+10FFFF
encodings rejected (lead bytes `0xC0`, `0xC1`, `0xF5..=0xFF` invalid;
restricted second-byte ranges after `0xE0`, `0xED`, `0xF0`, `0xF4`). -/
def validUtf8 : List Nat → Bool
  | [] => true
  | b :: rest =>
    if b ≤ 0x7F then validUtf8 rest
    else if decide (0xC2 ≤ b) && decide (b ≤ 0xDF) then
      match rest with
      | b2 :: rest2 => utf8Cont b2 && validUtf8 rest2
      | [] => false
    else if b == 0xE0 then
      match rest with
      | b2 :: b3 :: rest3 =>
        (decide (0xA0 ≤ b2) && decide (b2 ≤ 0xBF)) && utf8Cont b3 && validUtf8 rest3
      | _ => false
    else if (decide (0xE1 ≤ b) && decide (b ≤ 0xEC)) || b == 0xEE || b == 0xEF then
      match rest with
      | b2 :: b3 :: rest3 => utf8Cont b2 && utf8Cont b3 && validUtf8 rest3
      | _ => false
    else if b == 0xED then
      match rest with
      | b2 :: b3 :: rest3 =>
        (decide (0x80 ≤ b2) && decide (b2 ≤ 0x9F)) && utf8Cont b3 && validUtf8 rest3
      | _ => false
    else if b == 0xF0 then
      match rest with
      | b2 :: b3 :: b4 :: rest4 =>
        (decide (0x90 ≤ b2) && decide (b2 ≤ 0xBF)) && utf8Cont b3 && utf8Cont b4 &&
          validUtf8 rest4
      | _ => false
    else if decide (0xF1 ≤ b) && decide (b ≤ 0xF3) then
      match rest with
      | b2 :: b3 :: b4 :: rest4 =>
        utf8Cont b2 && utf8Cont b3 && utf8Cont b4 && validUtf8 rest4
      | _ => false
    else if b == 0xF4 then
      match rest with
      | b2 :: b3 :: b4 :: rest4 =>
        (decide (0x80 ≤ b2) && decide (b2 ≤ 0x8F)) && utf8Cont b3 && utf8Cont b4 &&
          validUtf8 rest4
      | _ => false
    else false

/-- The in-memory form of a decoded osu! string: `none` when the wire tag
was `0x00`, `some bytes` (the UTF-8 bytes of the string) when it was `0x0b`. -/
abbrev OsuString := Option (List Nat)

/-- `common.rs` `osu_string`: one tag byte; `0x00` means absent, `0x0b`
means a ULEB128 length followed by that many UTF-8-validated bytes
(`map_res(take(length), from_utf8)`), and any other tag is `fail`. -/
def osu_string : Parser OsuString := fun input =>
  match input with
  | [] => .error .eof
  | 0x00 :: i => .ok (i, none)
  | 0x0b :: i =>
    match uleb128 i with
    | .error e => .error e
    | .ok (i, length) =>
      match ptake length i with
      | .error e => .error e
      | .ok (i, bytes) =>
        if validUtf8 bytes then .ok (i, some bytes) else .error .mapResErr
  | _ :: _ => .error .failErr

/-- `common.rs` `GameplayMode`: closed enumeration of the four modes. -/
inductive GameplayMode where
  | Standard
  | Taiko
  | Catch
  | Mania
deriving DecidableEq, Repr

/-- `common.rs` `gameplay_mode`: one byte in `{0,1,2,3}`; anything else is a
`Switch` error. -/
def gameplay_mode : Parser GameplayMode := fun input =>
  match pu8 input with
  | .error e => .error e
  | .ok (i, status) =>
    match status with
    | 0 => .ok (i, GameplayMode.Standard)
    | 1 => .ok (i, GameplayMode.Taiko)
    | 2 => .ok (i, GameplayMode.Catch)
    | 3 => .ok (i, GameplayMode.Mania)
    | _ => .error .switchErr

/-- The `Mods` bit positions of `common.rs`; a modifier set is the `u32`
bitmask itself.  `Nightcore` and `KeyMod` are the multi-bit combinations the
source defines. -/
def Mods.NoFail : Nat := 1 <<< 0
def Mods.Easy : Nat := 1 <<< 1
def Mods.TouchDevice : Nat := 1 <<< 2
def Mods.Hidden : Nat := 1 <<< 3
def Mods.HardRock : Nat := 1 <<< 4
def Mods.SuddenDeath : Nat := 1 <<< 5
def Mods.DoubleTime : Nat := 1 <<< 6
def Mods.Relax : Nat := 1 <<< 7
def Mods.HalfTime : Nat := 1 <<< 8
def Mods.Nightcore : Nat := (1 <<< 6) ||| (1 <<< 9)
def Mods.Flashlight : Nat := 1 <<< 10
def Mods.Autoplay : Nat := 1 <<< 11
def Mods.SpunOut : Nat := 1 <<< 12
def Mods.Autopilot : Nat := 1 <<< 13
def Mods.Perfect : Nat := 1 <<< 14
def Mods.Key4 : Nat := 1 <<< 15
def Mods.Key5 : Nat := 1 <<< 16
def Mods.Key6 : Nat := 1 <<< 17
def Mods.Key7 : Nat := 1 <<< 18
def Mods.Key8 : Nat := 1 <<< 19
def Mods.KeyMod : Nat := Mods.Key4 ||| Mods.Key5 ||| Mods.Key6 ||| Mods.Key7 ||| Mods.Key8
def Mods.FadeIn : Nat := 1 <<< 20
def Mods.Random : Nat := 1 <<< 21
def Mods.Cinema : Nat := 1 <<< 22
def Mods.TargetPractice : Nat := 1 <<< 23
def Mods.Key9 : Nat := 1 <<< 24
def Mods.Coop : Nat := 1 <<< 25
def Mods.Key1 : Nat := 1 <<< 26
def Mods.Key3 : Nat := 1 <<< 27
def Mods.Key2 : Nat := 1 <<< 28
def Mods.ScoreV2 : Nat := 1 <<< 29
def Mods.Mirror : Nat := 1 <<< 30

/-- The union of every declared `Mods` bit: the mask
`FlagSet::<Mods>::new_truncated` keeps (evaluates to `0x7FFFFFFF`). -/
def Mods.fullMask : Nat :=
  Mods.NoFail ||| Mods.Easy ||| Mods.TouchDevice ||| Mods.Hidden ||| Mods.HardRock |||
  Mods.SuddenDeath ||| Mods.DoubleTime ||| Mods.Relax ||| Mods.HalfTime ||| Mods.Nightcore |||
  Mods.Flashlight ||| Mods.Autoplay ||| Mods.SpunOut ||| Mods.Autopilot ||| Mods.Perfect |||
  Mods.KeyMod ||| Mods.FadeIn ||| Mods.Random ||| Mods.Cinema ||| Mods.TargetPractice |||
  Mods.Key9 ||| Mods.Coop ||| Mods.Key1 ||| Mods.Key3 ||| Mods.Key2 ||| Mods.ScoreV2 |||
  Mods.Mirror

/-- `FlagSet::contains`: every bit of `flag` is present in `m`. -/
def modsContains (m flag : Nat) : Bool := m &&& flag == flag

/-- `common.rs` `modifiers`: a little-endian `u32` truncated to the known
flag bits (`FlagSet::new_truncated` silently drops unknown bits). -/
def modifiers : Parser Nat := do
  let bits ← le_u32
  ppure (bits &&& Mods.fullMask)

deriving instance DecidableEq for Except

/-! ## `scores.rs`: score/replay records

The lifebar micro-format operates on the text of the decoded string; all the
characters its grammar can accept are ASCII, so the byte list of the string
is worked on directly.  The `f32` health value of a point is kept as the
text `nom::number::complete::float` recognized (its numeric parse never
fails on recognized text), since no verified property reads it numerically.
-/

/-- ASCII decimal digit. -/
def isDigitByte (b : Nat) : Bool := decide (48 ≤ b) && decide (b ≤ 57)

/-- Value of an ASCII digit string (`str::parse` on `digit1` output). -/
def natOfDigits (ds : List Nat) : Nat := ds.foldl (fun acc d => acc * 10 + (d - 48)) 0

/-- Lower-case an ASCII byte, for nom `tag_no_case`. -/
def lowerByte (b : Nat) : Nat := if 65 ≤ b ∧ b ≤ 90 then b + 32 else b

/-- nom `tag_no_case(pat)`: the input starts with `pat`, ASCII
case-insensitively. -/
def matchNoCase (pat s : List Nat) : Bool :=
  ((s.take pat.length).map lowerByte == pat) && decide (pat.length ≤ s.length)

/-- The mantissa part of nom `recognize_float`: either `digit1` optionally
followed by `.` and optional digits, or `.` followed by `digit1`.  Returns
the rest after the mantissa, or `none` if no mantissa is present. -/
def recognizeFloatBody (s : List Nat) : Option (List Nat) :=
  let d1 := s.takeWhile isDigitByte
  let r1 := s.dropWhile isDigitByte
  if d1 ≠ [] then
    match r1 with
    | 46 :: r2 => some (r2.dropWhile isDigitByte)
    | _ => some r1
  else
    match s with
    | 46 :: r2 =>
      let d2 := r2.takeWhile isDigitByte
      if d2 ≠ [] then some (r2.dropWhile isDigitByte) else none
    | _ => none

/-- The optional exponent of nom `recognize_float`: `eE`, optional sign,
`digit1`; consumed only when complete (the surrounding `opt` backtracks
otherwise). -/
def recognizeExp (s : List Nat) : List Nat :=
  match s with
  | b :: r1 =>
    if b == 101 || b == 69 then
      let r2 := match r1 with
        | c :: r2' => if c == 43 || c == 45 then r2' else r1
        | [] => r1
      let d := r2.takeWhile isDigitByte
      if d ≠ [] then r2.dropWhile isDigitByte else s
    else s
  | [] => s

/-- nom `recognize_float`: optional sign, mantissa, optional exponent.
Returns the rest after the recognized text. -/
def recognizeFloatCore (s : List Nat) : Option (List Nat) :=
  let s1 := match s with
    | b :: r => if b == 43 || b == 45 then r else s
    | [] => s
  match recognizeFloatBody s1 with
  | some r => some (recognizeExp r)
  | none => none

/-- nom `recognize_float_or_exceptions`, the recognizer inside
`nom::number::complete::float`: `recognize_float`, or the case-insensitive
literals `nan` / `infinity` / `inf`.  Returns the unconsumed rest and the
recognized text. -/
def recognizeFloatOrExceptions (s : List Nat) : Option (List Nat × List Nat) :=
  match recognizeFloatCore s with
  | some rest => some (rest, s.take (s.length - rest.length))
  | none =>
    if matchNoCase [110, 97, 110] s then some (s.drop 3, s.take 3)
    else if matchNoCase [105, 110, 102, 105, 110, 105, 116, 121] s then
      some (s.drop 8, s.take 8)
    else if matchNoCase [105, 110, 102] s then some (s.drop 3, s.take 3)
    else none

/-- One `time|health,` element of `lifebar_graph_points`:
`terminated(separated_pair(map_res(digit1, parse::<u32>), tag("|"), float), tag(","))`.
`none` when the element parser fails (which is where `many0` stops). -/
def lifebar_pair (s : List Nat) : Option (List Nat × (Nat × List Nat)) :=
  let digits := s.takeWhile isDigitByte
  let r1 := s.dropWhile isDigitByte
  if digits = [] then none
  else if natOfDigits digits < 2 ^ 32 then
    match r1 with
    | 124 :: r2 =>
      match recognizeFloatOrExceptions r2 with
      | some (r3, ftext) =>
        match r3 with
        | 44 :: r4 => some (r4, (natOfDigits digits, ftext))
        | _ => none
      | _ => none
    | _ => none
  else none

/-- The `many0` loop of `scores.rs` `lifebar_graph_points`, with explicit
fuel.  A successful element always consumes at least one byte (its `digit1`
is nonempty), so fuel equal to the input length makes this exactly nom
`many0`; like `many0` it never fails, returning the elements parsed so far.
The unconsumed rest is dropped, as `lifebar_graph` drops it
(`.map(|(_, p)| p)`). -/
def lifebar_points_fuel : Nat → List Nat → List (Nat × List Nat)
  | 0, _ => []
  | fuel + 1, s =>
    match lifebar_pair s with
    | none => []
    | some (rest, p) => p :: lifebar_points_fuel fuel rest

/-- `scores.rs` `lifebar_graph_points`. -/
def lifebar_graph_points (s : List Nat) : List (Nat × List Nat) :=
  lifebar_points_fuel s.length s

/-- `scores.rs` `LifebarGraph`: the parsed `(time, health)` points. -/
structure LifebarGraph where
  points : List (Nat × List Nat)
deriving DecidableEq, Repr

/-- `scores.rs` `lifebar_graph`: an `osu_string`, parsed by the lifebar
micro-format when present. -/
def lifebar_graph : Parser (Option LifebarGraph) := do
  let lifebar ← osu_string
  match lifebar with
  | some s => ppure (some { points := lifebar_graph_points s })
  | none => ppure none

/-- `scores.rs` `ScoreReplay`: one decoded score/replay record. -/
structure ScoreReplay where
  gameplay_mode : GameplayMode
  version : Nat
  beatmap_md5 : OsuString
  player_name : OsuString
  replay_md5 : OsuString
  hits_300 : Nat
  hits_100 : Nat
  hits_50 : Nat
  hits_geki : Nat
  hits_katu : Nat
  misses : Nat
  score : Nat
  max_combo : Nat
  is_perfect_combo : Bool
  mods : Nat
  lifebar_graph : Option LifebarGraph
  timestamp : Nat
  replay_data : Option (List Nat)
  online_score_id : Nat
  additional_mod_info : Option Nat
deriving DecidableEq, Repr

/-- Lines 419–424 of `scores.rs` `score_replay`: read the replay-data length
as a `u32`; unless it is the `0xFFFFFFFF` sentinel, read exactly that many
raw bytes (`cond(len != 0xFFFFFFFF, map(take(len), to_vec))`). -/
def replay_blob : Parser (Option (List Nat)) := do
  let replay_data_length ← le_u32
  pcond (replay_data_length != 0xFFFFFFFF) (ptake replay_data_length)

/-- `scores.rs` `score_replay`: one score record, shared by `scores.db` and
standalone `.osr` framing. -/
def score_replay : Parser ScoreReplay := do
  let gameplay_mode ← gameplay_mode
  let version ← le_u32
  let beatmap_md5 ← osu_string
  let player_name ← osu_string
  let replay_md5 ← osu_string
  let hits_300 ← le_u16
  let hits_100 ← le_u16
  let hits_50 ← le_u16
  let hits_geki ← le_u16
  let hits_katu ← le_u16
  let misses ← le_u16
  let score ← le_u32
  let max_combo ← le_u16
  let is_perfect_combo ← boolean
  let mods ← modifiers
  let lifebar_graph ← lifebar_graph
  let timestamp ← windows_datetime
  let replay_data ← replay_blob
  let online_score_id ← le_u64
  let additional_mod_info ← pcond (modsContains mods Mods.TargetPractice) le_f64
  ppure {
    gameplay_mode := gameplay_mode
    version := version
    beatmap_md5 := beatmap_md5
    player_name := player_name
    replay_md5 := replay_md5
    hits_300 := hits_300
    hits_100 := hits_100
    hits_50 := hits_50
    hits_geki := hits_geki
    hits_katu := hits_katu
    misses := misses
    score := score
    max_combo := max_combo
    is_perfect_combo := is_perfect_combo
    mods := mods
    lifebar_graph := lifebar_graph
    timestamp := timestamp
    replay_data := replay_data
    online_score_id := online_score_id
    additional_mod_info := additional_mod_info
  }

/-- `scores.rs` `BeatmapScores`: the scores of one beatmap in `scores.db`. -/
structure BeatmapScores where
  md5 : OsuString
  scores : List ScoreReplay
deriving DecidableEq, Repr

/-- `scores.rs` `beatmap_scores`. -/
def beatmap_scores : Parser BeatmapScores := do
  let md5 ← osu_string
  let scores ← plength_count le_u32 score_replay
  ppure { md5 := md5, scores := scores }

/-- `scores.rs` `ScoreListing`: a whole `scores.db`. -/
structure ScoreListing where
  version : Nat
  beatmap_scores : List BeatmapScores
deriving DecidableEq, Repr

/-- `scores.rs` `score_listing`. -/
def score_listing : Parser ScoreListing := do
  let version ← le_u32
  let beatmap_scores ← plength_count le_u32 beatmap_scores
  ppure { version := version, beatmap_scores := beatmap_scores }

/-- `ScoreListing::from_bytes`: run the nom parser and drop the unconsumed
rest (`let (_, listing) = score_listing(data)?`). -/
def ScoreListing.from_bytes (data : List Nat) : Except PError ScoreListing :=
  match score_listing data with
  | .ok (_, listing) => .ok listing
  | .error e => .error e

/-- `ScoreReplay::from_bytes`: likewise for a standalone `.osr` record. -/
def ScoreReplay.from_bytes (data : List Nat) : Except PError ScoreReplay :=
  match score_replay data with
  | .ok (_, listing) => .ok listing
  | .error e => .error e

/-! ## `collections.rs`: collection listings -/

/-- `collections.rs` `Collection`. -/
structure Collection where
  name : OsuString
  beatmap_md5s : List OsuString
deriving DecidableEq, Repr

/-- `collections.rs` `CollectionListing`. -/
structure CollectionListing where
  version : Nat
  collections : List Collection
deriving DecidableEq, Repr

/-- `collections.rs` `collection`: a name, then a `u32`-count-prefixed list
of beatmap hashes. -/
def collection : Parser Collection := do
  let name ← osu_string
  let beatmap_md5s ← plength_count le_u32 osu_string
  ppure { name := name, beatmap_md5s := beatmap_md5s }

/-- `collections.rs` `collection_listing`: a version, then a
`u32`-count-prefixed list of collections. -/
def collection_listing : Parser CollectionListing := do
  let version ← le_u32
  let collections ← plength_count le_u32 collection
  ppure { version := version, collections := collections }

/-- `CollectionListing::from_bytes`: run the nom parser and drop the
unconsumed rest (`let (_, listing) = collection_listing(data)?`). -/
def CollectionListing.from_bytes (data : List Nat) : Except PError CollectionListing :=
  match collection_listing data with
  | .ok (_, listing) => .ok listing
  | .error e => .error e

/-! ## `scores.rs`: scoring analytics

`ScoreReplay::accuracy` and `ScoreReplay::grade`, over `ℚ` per the
conventions above.  The source adds the `u16` judgement counters *before*
widening to `f64` in every denominator total (and in the Catch numerator);
those sums wrap at `2 ^ 16` in release builds (overflow-checked builds
panic), which the `% 65536` below reproduces.  Sums the source performs
after the `as f64` casts are modelled without a wrap. -/

/-- `ScoreReplay::accuracy` (`scores.rs` lines 170–220). -/
def ScoreReplay.accuracy (r : ScoreReplay) : ℚ :=
  let accuracy : ℚ :=
    match r.gameplay_mode with
    | .Standard =>
      (300 * (r.hits_300 : ℚ) + 100 * (r.hits_100 : ℚ) + 50 * (r.hits_50 : ℚ)) /
        (300 * (((r.hits_300 + r.hits_100 + r.hits_50 + r.misses) % 65536 : Nat) : ℚ))
    | .Taiko =>
      ((r.hits_300 : ℚ) + (1 / 2) * (r.hits_100 : ℚ)) /
        (((r.hits_300 + r.hits_100 + r.misses) % 65536 : Nat) : ℚ)
    | .Catch =>
      ((((r.hits_300 + r.hits_100 + r.hits_50) % 65536 : Nat)) : ℚ) /
        ((((r.hits_300 + r.hits_100 + r.hits_50 + r.misses + r.hits_katu) % 65536 : Nat)) : ℚ)
    | .Mania =>
      let hits_300_or_below : ℚ := 300 * (r.hits_300 : ℚ) + 200 * (r.hits_katu : ℚ) +
        100 * (r.hits_100 : ℚ) + 50 * (r.hits_50 : ℚ)
      let total : ℚ :=
        (((r.hits_geki + r.hits_300 + r.hits_100 + r.hits_50 + r.misses) % 65536 : Nat) : ℚ)
      if modsContains r.mods Mods.ScoreV2 then
        (300 * (r.hits_geki : ℚ) + hits_300_or_below) / (300 * total)
      else
        (305 * (r.hits_geki : ℚ) + hits_300_or_below) / (305 * total)
  accuracy * 100

/-- `common.rs` `Grade`: the letter grades referenced by
`ScoreReplay::grade`.  The declaration of the enum itself is not among the provided
sources (only its uses are); its variants are those `grade` constructs,
which coincide with the wording of the spec: "letter rank (D through SS, with silver
variants)". -/
inductive Grade where
  | SS
  | SilverSS
  | S
  | SilverS
  | A
  | B
  | C
  | D
deriving DecidableEq, Repr

/-- The silver-promotion match at the end of `ScoreReplay::grade` (lines
344–348): `(SS, true) => SilverSS`, `(S, true) => SilverS`, anything else
unchanged. -/
def promoteSilver (g : Grade) (contains_silver_mod : Bool) : Grade :=
  match g, contains_silver_mod with
  | .SS, true => .SilverSS
  | .S, true => .SilverS
  | _, _ => g

/-- The non-SS branch of the Standard arm of `grade`: the
`match (ratio_300, ratio_50, misses)` over the ratios of 300s and 50s. -/
def stdBaseGrade (r : ScoreReplay) : Grade :=
  let total_objects : ℚ := (r.hits_300 : ℚ) + (r.hits_100 : ℚ) + (r.hits_50 : ℚ) +
    (r.misses : ℚ)
  let ratio_300 : ℚ := (r.hits_300 : ℚ) / total_objects
  let ratio_50 : ℚ := (r.hits_50 : ℚ) / total_objects
  if r.misses == 0 && decide (ratio_300 ≥ 9 / 10) && decide (ratio_50 ≤ 1 / 100) then .S
  else if (decide (ratio_300 ≥ 8 / 10) && r.misses == 0) || decide (ratio_300 ≥ 9 / 10) then .A
  else if (decide (ratio_300 ≥ 7 / 10) && r.misses == 0) || decide (ratio_300 ≥ 8 / 10) then .B
  else if decide (ratio_300 ≥ 6 / 10) then .C
  else .D

/-- The non-SS branch of the Taiko arm of `grade`. -/
def taikoBaseGrade (r : ScoreReplay) : Grade :=
  let total_objects : ℚ := (r.hits_300 : ℚ) + (r.hits_100 : ℚ) + (r.misses : ℚ)
  let ratio_great : ℚ := (r.hits_300 : ℚ) / total_objects
  if decide (ratio_great ≥ 9 / 10) && r.misses == 0 then .S
  else if (decide (ratio_great ≥ 8 / 10) && r.misses == 0) || decide (ratio_great ≥ 9 / 10) then .A
  else if (decide (ratio_great ≥ 7 / 10) && r.misses == 0) || decide (ratio_great ≥ 8 / 10) then .B
  else if decide (ratio_great ≥ 6 / 10) then .C
  else .D

/-- The non-SS branch of the Catch arm of `grade`: thresholds on
`accuracy()`. -/
def catchBaseGrade (r : ScoreReplay) : Grade :=
  if decide (r.accuracy > 98) then .S
  else if decide (r.accuracy > 94) then .A
  else if decide (r.accuracy > 90) then .B
  else if decide (r.accuracy > 85) then .C
  else .D

/-- The non-SS branch of the Mania arm of `grade`: thresholds on
`accuracy()`. -/
def maniaBaseGrade (r : ScoreReplay) : Grade :=
  if decide (r.accuracy ≥ 95) then .S
  else if decide (r.accuracy ≥ 90) then .A
  else if decide (r.accuracy ≥ 80) then .B
  else if decide (r.accuracy ≥ 70) then .C
  else .D

/-- `ScoreReplay::grade` (`scores.rs` lines 223–349).

Each mode SS case is a Rust `return Grade::SS;` that exits `grade()`
immediately, whereas the other grades are the value of the enclosing
`match`, which then flows through the silver-promotion step; `Sum.inl`
models the early return and `Sum.inr` the fall-through.  The Mania SS
condition transcribes the source operator precedence exactly: `&&` binds
tighter than `||`, so its last line parses as
`(!scorev2 && geki > 0) || hits_300 > 0`. -/
def ScoreReplay.grade (r : ScoreReplay) : Grade :=
  let earlyOrBase : Grade ⊕ Grade :=
    match r.gameplay_mode with
    | .Standard =>
      if decide (r.hits_300 > 0) && r.hits_100 == 0 && r.hits_50 == 0 && r.misses == 0 then
        .inl .SS
      else .inr (stdBaseGrade r)
    | .Taiko =>
      if decide (r.hits_300 > 0) && r.hits_100 == 0 && r.misses == 0 then .inl .SS
      else .inr (taikoBaseGrade r)
    | .Catch =>
      if r.misses == 0 && r.hits_katu == 0 then .inl .SS
      else .inr (catchBaseGrade r)
    | .Mania =>
      if r.hits_100 == 0 && r.hits_50 == 0 && r.hits_katu == 0 && r.misses == 0 &&
          ((modsContains r.mods Mods.ScoreV2 && decide (r.hits_geki > 0) && r.hits_300 == 0) ||
            (!modsContains r.mods Mods.ScoreV2 && decide (r.hits_geki > 0) ||
              decide (r.hits_300 > 0))) then
        .inl .SS
      else .inr (maniaBaseGrade r)
  let contains_silver_mod := modsContains r.mods Mods.Hidden ||
    modsContains r.mods Mods.Flashlight || modsContains r.mods Mods.FadeIn
  match earlyOrBase with
  | .inl g => g
  | .inr g => promoteSilver g contains_silver_mod

/-! ## `beatmaps.rs`: the beatmap listing -/

/-- `beatmaps.rs` `RankedStatus`: closed set `{0,1,2,4,5,6,7}`; 3 is
unused. -/
inductive RankedStatus where
  | Unknown
  | Unsubmitted
  | Pending
  | Ranked
  | Approved
  | Qualified
  | Loved
deriving DecidableEq, Repr

/-- `beatmaps.rs` `ranked_status`: one byte; 3 and anything above 7 are a
`Switch` error. -/
def ranked_status : Parser RankedStatus := fun input =>
  match pu8 input with
  | .error e => .error e
  | .ok (i, status) =>
    match status with
    | 0 => .ok (i, RankedStatus.Unknown)
    | 1 => .ok (i, RankedStatus.Unsubmitted)
    | 2 => .ok (i, RankedStatus.Pending)
    | 4 => .ok (i, RankedStatus.Ranked)
    | 5 => .ok (i, RankedStatus.Approved)
    | 6 => .ok (i, RankedStatus.Qualified)
    | 7 => .ok (i, RankedStatus.Loved)
    | _ => .error .switchErr

/-- `beatmaps.rs` `TimingPoint` (bpm and offset kept as raw `f64` bit
patterns). -/
structure TimingPoint where
  bpm : Nat
  song_offset : Nat
  inherited : Bool
deriving DecidableEq, Repr

/-- `beatmaps.rs` `timing_point`: two `f64`s and a boolean. -/
def timing_point : Parser TimingPoint := do
  let bpm ← le_f64
  let song_offset ← le_f64
  let inherited ← boolean
  ppure { bpm := bpm, song_offset := song_offset, inherited := inherited }

/-- `beatmaps.rs` `int_double_pair`: a literal `0x08` marker, a `u32`, a
literal `0x0d` marker, an `f64`. -/
def int_double_pair : Parser (Nat × Nat) := do
  let _ ← ptagBytes [0x08]
  let int ← le_u32
  let _ ← ptagBytes [0x0d]
  let double ← le_f64
  ppure (int, double)

/-- `beatmaps.rs` `star_ratings`: a `u32`-count-prefixed list of
`int_double_pair`s, the `u32` truncated to the known modifier bits
(`FlagSet::new_truncated`). -/
def star_ratings : Parser (List (Nat × Nat)) :=
  plength_count le_u32 (do
    let pair ← int_double_pair
    ppure (pair.1 &&& Mods.fullMask, pair.2))

/-- The position of the highest set bit of a byte value (0 for 0 and 1). -/
def byteMsb (b : Nat) : Nat :=
  if b < 2 then 0
  else if b < 4 then 1
  else if b < 8 then 2
  else if b < 16 then 3
  else if b < 32 then 4
  else if b < 64 then 5
  else if b < 128 then 6
  else 7

/-- The IEEE-754 single-precision bit pattern of the byte value `b`
(`b as f32`, exact for every `b ≤ 255`): for positive `b` with highest set
bit `e`, a biased exponent of `127 + e` and the bits of `b` below the
leading one as the high mantissa bits. -/
def byteToF32bits (b : Nat) : Nat :=
  if b = 0 then 0
  else (127 + byteMsb b) <<< 23 ||| ((b <<< (23 - byteMsb b)) &&& 0x7FFFFF)

/-- The version-selected difficulty-statistic reader built at the top of
`beatmaps.rs` `beatmap_entry`: a single byte converted to `f32` when the
listing version is below 20140609, a raw little-endian `f32` otherwise. -/
def parse_difficulty (version : Nat) : Parser Nat :=
  if version < 20140609 then do
    let b ← pu8
    ppure (byteToF32bits b)
  else le_f32

/-- `beatmaps.rs` `BeatmapEntry` (floats as raw bit patterns, timestamps as
tick counts). -/
structure BeatmapEntry where
  size : Option Nat
  artist_name : OsuString
  artist_name_unicode : OsuString
  song_title : OsuString
  song_title_unicode : OsuString
  creator_name : OsuString
  difficulty : OsuString
  audio_filename : OsuString
  md5 : OsuString
  beatmap_filename : OsuString
  ranked_status : RankedStatus
  hitcircle_count : Nat
  slider_count : Nat
  spinner_count : Nat
  last_modification_time : Nat
  approach_rate : Nat
  circle_size : Nat
  hp_drain : Nat
  overall_difficulty : Nat
  slider_velocity : Nat
  star_ratings_std : List (Nat × Nat)
  star_ratings_taiko : List (Nat × Nat)
  star_ratings_ctb : List (Nat × Nat)
  star_ratings_mania : List (Nat × Nat)
  drain_time : Nat
  total_time : Nat
  audio_preview_time : Nat
  timing_points : List TimingPoint
  difficulty_id : Nat
  beatmap_id : Nat
  thread_id : Nat
  grade_std : Nat
  grade_taiko : Nat
  grade_catch : Nat
  grade_mania : Nat
  local_offset : Nat
  stack_leniency : Nat
  gameplay_mode : GameplayMode
  song_source : OsuString
  song_tags : OsuString
  online_offset : Nat
  font : OsuString
  is_unplayed : Bool
  last_played : Nat
  is_osz2 : Bool
  folder_name : OsuString
  last_checked_online : Nat
  ignore_beatmap_hitsounds : Bool
  ignore_beatmap_skin : Bool
  disable_storyboard : Bool
  disable_video : Bool
  mania_scroll_speed : Nat
deriving DecidableEq, Repr

/-- `beatmaps.rs` `beatmap_entry`: one beatmap entry, with the per-entry
size present only below version 20191106, difficulty statistics read via
`parse_difficulty`, an unused `f32` below version 20140609, and an always
present unused `u32`. -/
def beatmap_entry (version : Nat) : Parser BeatmapEntry := do
  let size ← pcond (decide (version < 20191106)) le_u32
  let artist_name ← osu_string
  let artist_name_unicode ← osu_string
  let song_title ← osu_string
  let song_title_unicode ← osu_string
  let creator_name ← osu_string
  let difficulty ← osu_string
  let audio_filename ← osu_string
  let md5 ← osu_string
  let beatmap_filename ← osu_string
  let ranked_status ← ranked_status
  let hitcircle_count ← le_u16
  let slider_count ← le_u16
  let spinner_count ← le_u16
  let last_modification_time ← windows_datetime
  let approach_rate ← parse_difficulty version
  let circle_size ← parse_difficulty version
  let hp_drain ← parse_difficulty version
  let overall_difficulty ← parse_difficulty version
  let slider_velocity ← le_f64
  let star_ratings_std ← star_ratings
  let star_ratings_taiko ← star_ratings
  let star_ratings_ctb ← star_ratings
  let star_ratings_mania ← star_ratings
  let drain_time ← le_u32
  let total_time ← le_u32
  let audio_preview_time ← le_u32
  let timing_points ← plength_count le_u32 timing_point
  let difficulty_id ← le_u32
  let beatmap_id ← le_u32
  let thread_id ← le_u32
  let grade_std ← pu8
  let grade_taiko ← pu8
  let grade_catch ← pu8
  let grade_mania ← pu8
  let local_offset ← le_u16
  let stack_leniency ← le_f32
  let gameplay_mode ← gameplay_mode
  let song_source ← osu_string
  let song_tags ← osu_string
  let online_offset ← le_u16
  let font ← osu_string
  let is_unplayed ← boolean
  let last_played ← windows_datetime
  let is_osz2 ← boolean
  let folder_name ← osu_string
  let last_checked_online ← windows_datetime
  let ignore_beatmap_hitsounds ← boolean
  let ignore_beatmap_skin ← boolean
  let disable_storyboard ← boolean
  let disable_video ← boolean
  let _ ← pcond (decide (version < 20140609)) le_f32
  let _ ← le_u32
  let mania_scroll_speed ← pu8
  ppure {
    size := size
    artist_name := artist_name
    artist_name_unicode := artist_name_unicode
    song_title := song_title
    song_title_unicode := song_title_unicode
    creator_name := creator_name
    difficulty := difficulty
    audio_filename := audio_filename
    md5 := md5
    beatmap_filename := beatmap_filename
    ranked_status := ranked_status
    hitcircle_count := hitcircle_count
    slider_count := slider_count
    spinner_count := spinner_count
    last_modification_time := last_modification_time
    approach_rate := approach_rate
    circle_size := circle_size
    hp_drain := hp_drain
    overall_difficulty := overall_difficulty
    slider_velocity := slider_velocity
    star_ratings_std := star_ratings_std
    star_ratings_taiko := star_ratings_taiko
    star_ratings_ctb := star_ratings_ctb
    star_ratings_mania := star_ratings_mania
    drain_time := drain_time
    total_time := total_time
    audio_preview_time := audio_preview_time
    timing_points := timing_points
    difficulty_id := difficulty_id
    beatmap_id := beatmap_id
    thread_id := thread_id
    grade_std := grade_std
    grade_taiko := grade_taiko
    grade_catch := grade_catch
    grade_mania := grade_mania
    local_offset := local_offset
    stack_leniency := stack_leniency
    gameplay_mode := gameplay_mode
    song_source := song_source
    song_tags := song_tags
    online_offset := online_offset
    font := font
    is_unplayed := is_unplayed
    last_played := last_played
    is_osz2 := is_osz2
    folder_name := folder_name
    last_checked_online := last_checked_online
    ignore_beatmap_hitsounds := ignore_beatmap_hitsounds
    ignore_beatmap_skin := ignore_beatmap_skin
    disable_storyboard := disable_storyboard
    disable_video := disable_video
    mania_scroll_speed := mania_scroll_speed
  }

/-- `beatmaps.rs` `BeatmapListing`: a whole `osu.db`. -/
structure BeatmapListing where
  version : Nat
  folder_count : Nat
  account_unlocked : Bool
  account_unlock_date : Nat
  player_name : OsuString
  beatmaps : List BeatmapEntry
  user_permissions : Nat
deriving DecidableEq, Repr

/-- `beatmaps.rs` `beatmap_listing`: the header, a `u32`-count-prefixed
array of entries (each parameterized by the header version), and the
trailing user permissions. -/
def beatmap_listing : Parser BeatmapListing := do
  let version ← le_u32
  let folder_count ← le_u32
  let account_unlocked ← boolean
  let account_unlock_date ← windows_datetime
  let player_name ← osu_string
  let beatmaps ← plength_count le_u32 (beatmap_entry version)
  let user_permissions ← le_u32
  ppure {
    version := version
    folder_count := folder_count
    account_unlocked := account_unlocked
    account_unlock_date := account_unlock_date
    player_name := player_name
    beatmaps := beatmaps
    user_permissions := user_permissions
  }

/-! ## Spec-side definitions and concrete inputs -/

/-- Modelled from the spec: the canonical ULEB128 encoder of the §8 round-trip
property `decode(encode(n)) == n` ("each byte contributes 7 data bits, high
bit signals continuation").  The repository contains only the decoder. -/
def ulebEncode (n : Nat) : List Nat :=
  if h : n < 128 then [n] else (n % 128 + 128) :: ulebEncode (n / 128)
decreasing_by
  exact Nat.div_lt_self (by omega) (by norm_num)

/-- The Mania SS condition of the spec, transcribed from its own wording: zeros
in {100, 50, katu, miss}, and `(ScoreV2: geki>0 & 300==0)` or
`(not ScoreV2: geki>0 or 300>0)` — the `or 300>0` grouped under the
"not ScoreV2" case, as the claim reads it. -/
def maniaSSPerSpec (r : ScoreReplay) : Bool :=
  r.hits_100 == 0 && r.hits_50 == 0 && r.hits_katu == 0 && r.misses == 0 &&
    ((modsContains r.mods Mods.ScoreV2 && decide (r.hits_geki > 0) && r.hits_300 == 0) ||
      (!modsContains r.mods Mods.ScoreV2 &&
        (decide (r.hits_geki > 0) || decide (r.hits_300 > 0))))

/-- The accuracy computation with every counter total taken as the true
mathematical sum (the value the claim about the 16-bit additions contrasts
the code against); identical to `ScoreReplay.accuracy` except that no sum
wraps at `2 ^ 16`. -/
def ScoreReplay.accuracySpecTotals (r : ScoreReplay) : ℚ :=
  let accuracy : ℚ :=
    match r.gameplay_mode with
    | .Standard =>
      (300 * (r.hits_300 : ℚ) + 100 * (r.hits_100 : ℚ) + 50 * (r.hits_50 : ℚ)) /
        (300 * (((r.hits_300 + r.hits_100 + r.hits_50 + r.misses : Nat)) : ℚ))
    | .Taiko =>
      ((r.hits_300 : ℚ) + (1 / 2) * (r.hits_100 : ℚ)) /
        (((r.hits_300 + r.hits_100 + r.misses : Nat)) : ℚ)
    | .Catch =>
      (((r.hits_300 + r.hits_100 + r.hits_50 : Nat)) : ℚ) /
        (((r.hits_300 + r.hits_100 + r.hits_50 + r.misses + r.hits_katu : Nat)) : ℚ)
    | .Mania =>
      let hits_300_or_below : ℚ := 300 * (r.hits_300 : ℚ) + 200 * (r.hits_katu : ℚ) +
        100 * (r.hits_100 : ℚ) + 50 * (r.hits_50 : ℚ)
      let total : ℚ :=
        (((r.hits_geki + r.hits_300 + r.hits_100 + r.hits_50 + r.misses : Nat)) : ℚ)
      if modsContains r.mods Mods.ScoreV2 then
        (300 * (r.hits_geki : ℚ) + hits_300_or_below) / (300 * total)
      else
        (305 * (r.hits_geki : ℚ) + hits_300_or_below) / (305 * total)
  accuracy * 100

/-- Whether the counter sums `accuracy` wraps at `2 ^ 16` stay below
`65536` for the mode in question (no `u16` overflow). -/
def countersSmall (r : ScoreReplay) : Prop :=
  match r.gameplay_mode with
  | .Standard => r.hits_300 + r.hits_100 + r.hits_50 + r.misses < 65536
  | .Taiko => r.hits_300 + r.hits_100 + r.misses < 65536
  | .Catch => r.hits_300 + r.hits_100 + r.hits_50 + r.misses + r.hits_katu < 65536
  | .Mania => r.hits_geki + r.hits_300 + r.hits_100 + r.hits_50 + r.misses < 65536

/-- The nonzero-denominator condition of `accuracy` for the mode in
question (on the true sums; used together with `countersSmall`). -/
def countersNonzero (r : ScoreReplay) : Prop :=
  match r.gameplay_mode with
  | .Standard => 0 < r.hits_300 + r.hits_100 + r.hits_50 + r.misses
  | .Taiko => 0 < r.hits_300 + r.hits_100 + r.misses
  | .Catch => 0 < r.hits_300 + r.hits_100 + r.hits_50 + r.misses + r.hits_katu
  | .Mania => 0 < r.hits_geki + r.hits_300 + r.hits_100 + r.hits_50 + r.misses

/-- The projection of a beatmap-entry parse used by the concrete
version-gating checks: unconsumed rest, `size`, and the four difficulty
statistics. -/
def entryView (r : Except PError (List Nat × BeatmapEntry)) :
    Option (List Nat × Option Nat × Nat × Nat × Nat × Nat) :=
  match r with
  | .ok (i, e) => some (i, e.size, e.approach_rate, e.circle_size, e.hp_drain,
      e.overall_difficulty)
  | .error _ => none

/-- A score record with every field zero / absent: the base the concrete
test records below modify. -/
def baseScore : ScoreReplay := {
  gameplay_mode := .Standard
  version := 0
  beatmap_md5 := none
  player_name := none
  replay_md5 := none
  hits_300 := 0
  hits_100 := 0
  hits_50 := 0
  hits_geki := 0
  hits_katu := 0
  misses := 0
  score := 0
  max_combo := 0
  is_perfect_combo := false
  mods := 0
  lifebar_graph := none
  timestamp := 0
  replay_data := none
  online_score_id := 0
  additional_mod_info := none
}

/-- Mania, ScoreV2, one rainbow 300 and one plain 300, zeros elsewhere: the
record on which the source Mania SS condition diverges from its comment
and from the spec. -/
def maniaV2Mixed : ScoreReplay :=
  { baseScore with
    gameplay_mode := .Mania
    hits_geki := 1
    hits_300 := 1
    mods := Mods.ScoreV2 }

/-- Mania, one 300 and one katu (200), zeros elsewhere: katu feeds the
accuracy numerator at weight 200 but is missing from the total. -/
def maniaKatuScore : ScoreReplay :=
  { baseScore with gameplay_mode := .Mania, hits_300 := 1, hits_katu := 1 }

/-- Standard, one 300, zeros elsewhere. -/
def stdPerfect : ScoreReplay := { baseScore with hits_300 := 1 }

/-- Standard, one 300, zeros elsewhere, with Hidden. -/
def stdPerfectHidden : ScoreReplay := { baseScore with hits_300 := 1, mods := Mods.Hidden }

/-- Standard, 19 × 300 and 1 × 100 (ratio 0.95, no misses), with Hidden:
an S that the silver promotion does reach. -/
def stdNinetyHidden : ScoreReplay :=
  { baseScore with
    hits_300 := 19
    hits_100 := 1
    mods := Mods.Hidden }

/-- Standard, 40000 × 300 and 40000 × 100: the counter sum 80000 wraps to
14464 in the `u16` addition of `accuracy` denominator. -/
def bigStd : ScoreReplay := { baseScore with hits_300 := 40000, hits_100 := 40000 }

/-- A standalone score-record buffer: Standard, version 0, absent strings,
one 300, no mods, absent lifebar, replay-blob length `0xFFFFFFFF`
(sentinel), online score id 0.  Decodes to `stdPerfect` exactly. -/
def scoreBufSentinel : List Nat :=
  [0] ++ [0, 0, 0, 0] ++ [0] ++ [0] ++ [0] ++
  [1, 0] ++ [0, 0] ++ [0, 0] ++ [0, 0] ++ [0, 0] ++ [0, 0] ++
  [0, 0, 0, 0] ++ [0, 0] ++ [0] ++ [0, 0, 0, 0] ++ [0] ++
  [0, 0, 0, 0, 0, 0, 0, 0] ++ [0xFF, 0xFF, 0xFF, 0xFF] ++ [0, 0, 0, 0, 0, 0, 0, 0]

/-- The same record with a declared replay-blob length of `0`. -/
def scoreBufZeroBlob : List Nat :=
  [0] ++ [0, 0, 0, 0] ++ [0] ++ [0] ++ [0] ++
  [1, 0] ++ [0, 0] ++ [0, 0] ++ [0, 0] ++ [0, 0] ++ [0, 0] ++
  [0, 0, 0, 0] ++ [0, 0] ++ [0] ++ [0, 0, 0, 0] ++ [0] ++
  [0, 0, 0, 0, 0, 0, 0, 0] ++ [0, 0, 0, 0] ++ [0, 0, 0, 0, 0, 0, 0, 0]

/-- `stdPerfect` with a present-but-empty replay blob, the decode of
`scoreBufZeroBlob`. -/
def stdPerfectEmptyBlob : ScoreReplay := { baseScore with hits_300 := 1, replay_data := some [] }

/-- The same record with the TargetPractice modifier (`1 << 23`, bytes
`[0,0,0x80,0]`) and the eight extra bytes of the trailing accuracy
supplement. -/
def scoreBufTP : List Nat :=
  [0] ++ [0, 0, 0, 0] ++ [0] ++ [0] ++ [0] ++
  [1, 0] ++ [0, 0] ++ [0, 0] ++ [0, 0] ++ [0, 0] ++ [0, 0] ++
  [0, 0, 0, 0] ++ [0, 0] ++ [0] ++ [0, 0, 0x80, 0] ++ [0] ++
  [0, 0, 0, 0, 0, 0, 0, 0] ++ [0xFF, 0xFF, 0xFF, 0xFF] ++ [0, 0, 0, 0, 0, 0, 0, 0] ++
  [0, 0, 0, 0, 0, 0, 0, 0]

/-- `stdPerfect` with TargetPractice set and the accuracy supplement
present, the decode of `scoreBufTP`. -/
def stdPerfectTP : ScoreReplay :=
  { baseScore with
    hits_300 := 1
    mods := Mods.TargetPractice
    additional_mod_info := some 0 }

/-- A collection listing whose declared counts are all satisfied, followed
by one extra trailing byte `0xAA`. -/
def leftoverBuf : List Nat := [0, 0, 0, 0, 0, 0, 0, 0, 0xAA]

/-- A collection listing declaring one collection but providing no bytes
for it. -/
def insufficientBuf : List Nat := [0, 0, 0, 0, 1, 0, 0, 0]

/-- A beatmap-entry buffer for a listing version below 20140609: a `u32`
size of 57, absent strings, ranked status 4, one byte per difficulty
statistic (7, 8, 5, 6), empty arrays, the version-gated unused `f32`, the
unconditional unused `u32`, and a mania scroll speed of 3. -/
def oldEntryBuf : List Nat :=
  [57, 0, 0, 0] ++
  [0, 0, 0, 0, 0, 0, 0, 0, 0] ++
  [4] ++ [0, 0] ++ [0, 0] ++ [0, 0] ++ [0, 0, 0, 0, 0, 0, 0, 0] ++
  [7] ++ [8] ++ [5] ++ [6] ++ [0, 0, 0, 0, 0, 0, 0, 0] ++
  [0, 0, 0, 0] ++ [0, 0, 0, 0] ++ [0, 0, 0, 0] ++ [0, 0, 0, 0] ++
  [0, 0, 0, 0] ++ [0, 0, 0, 0] ++ [0, 0, 0, 0] ++ [0, 0, 0, 0] ++
  [0, 0, 0, 0] ++ [0, 0, 0, 0] ++ [0, 0, 0, 0] ++ [0, 0, 0, 0] ++
  [0, 0] ++ [0, 0, 0, 0] ++ [0] ++ [0] ++ [0] ++ [0, 0] ++ [0] ++ [0] ++
  [0, 0, 0, 0, 0, 0, 0, 0] ++ [0] ++ [0] ++ [0, 0, 0, 0, 0, 0, 0, 0] ++
  [0, 0, 0, 0] ++
  [0, 0, 0, 0] ++ [0, 0, 0, 0] ++ [3]

/-- A beatmap-entry buffer for listing version 20191106: no size field,
four raw little-endian `f32` difficulty statistics (3.0, 1.0, 5.0, 6.0) and
no version-gated unused `f32`. -/
def newEntryBuf : List Nat :=
  [0, 0, 0, 0, 0, 0, 0, 0, 0] ++
  [4] ++ [0, 0] ++ [0, 0] ++ [0, 0] ++ [0, 0, 0, 0, 0, 0, 0, 0] ++
  [0, 0, 64, 64] ++ [0, 0, 128, 63] ++ [0, 0, 160, 64] ++ [0, 0, 192, 64] ++
  [0, 0, 0, 0, 0, 0, 0, 0] ++
  [0, 0, 0, 0] ++ [0, 0, 0, 0] ++ [0, 0, 0, 0] ++ [0, 0, 0, 0] ++
  [0, 0, 0, 0] ++ [0, 0, 0, 0] ++ [0, 0, 0, 0] ++ [0, 0, 0, 0] ++
  [0, 0, 0, 0] ++ [0, 0, 0, 0] ++ [0, 0, 0, 0] ++ [0, 0, 0, 0] ++
  [0, 0] ++ [0, 0, 0, 0] ++ [0] ++ [0] ++ [0] ++ [0, 0] ++ [0] ++ [0] ++
  [0, 0, 0, 0, 0, 0, 0, 0] ++ [0] ++ [0] ++ [0, 0, 0, 0, 0, 0, 0, 0] ++
  [0, 0, 0, 0] ++
  [0, 0, 0, 0] ++ [3]

/-- The decode of `newEntryBuf` at version 20191106: no size, difficulty
bit patterns 3.0f, 1.0f, 5.0f, 6.0f, everything else zero / absent. -/
def newEntryRec : BeatmapEntry := {
  size := none
  artist_name := none
  artist_name_unicode := none
  song_title := none
  song_title_unicode := none
  creator_name := none
  difficulty := none
  audio_filename := none
  md5 := none
  beatmap_filename := none
  ranked_status := .Ranked
  hitcircle_count := 0
  slider_count := 0
  spinner_count := 0
  last_modification_time := 0
  approach_rate := 1077936128
  circle_size := 1065353216
  hp_drain := 1084227584
  overall_difficulty := 1086324736
  slider_velocity := 0
  star_ratings_std := []
  star_ratings_taiko := []
  star_ratings_ctb := []
  star_ratings_mania := []
  drain_time := 0
  total_time := 0
  audio_preview_time := 0
  timing_points := []
  difficulty_id := 0
  beatmap_id := 0
  thread_id := 0
  grade_std := 0
  grade_taiko := 0
  grade_catch := 0
  grade_mania := 0
  local_offset := 0
  stack_leniency := 0
  gameplay_mode := .Standard
  song_source := none
  song_tags := none
  online_offset := 0
  font := none
  is_unplayed := false
  last_played := 0
  is_osz2 := false
  folder_name := none
  last_checked_online := 0
  ignore_beatmap_hitsounds := false
  ignore_beatmap_skin := false
  disable_storyboard := false
  disable_video := false
  mania_scroll_speed := 3
}

/-! ## Theorems: parser-monad inversion and basic facts -/

-- Basic inversion lemmas for the parser monad.

theorem Parser.bind_ok_iff {α β : Type} {p : Parser α} {f : α → Parser β}
    {i : List Nat} {r : List Nat × β} :
    (p >>= f) i = Except.ok r ↔ ∃ j a, p i = Except.ok (j, a) ∧ f a j = Except.ok r := by
  show pbind p f i = Except.ok r ↔ _
  unfold pbind
  cases h : p i with
  | error e => simp [h]
  | ok v =>
    obtain ⟨j, a⟩ := v
    simp only [h, Except.ok.injEq, Prod.mk.injEq]
    constructor
    · intro hf
      exact ⟨j, a, ⟨rfl, rfl⟩, hf⟩
    · rintro ⟨j1, a1, ⟨rfl, rfl⟩, hf⟩
      exact hf

theorem ppure_ok_iff {α : Type} {a : α} {i : List Nat} {r : List Nat × α} :
    ppure a i = Except.ok r ↔ r = (i, a) := by
  unfold ppure
  constructor
  · intro h
    cases h
    rfl
  · intro h
    cases h
    rfl

theorem Parser.pure_ok_iff {α : Type} {a : α} {i : List Nat} {r : List Nat × α} :
    (pure a : Parser α) i = Except.ok r ↔ r = (i, a) := ppure_ok_iff

theorem pcond_isSome {α : Type} {b : Bool} {p : Parser α} {i i' : List Nat}
    {x : Option α} (h : pcond b p i = .ok (i', x)) : x.isSome = b := by
  unfold pcond at h
  cases b with
  | false =>
    simp at h
    obtain ⟨-, h⟩ := h
    cases h
    rfl
  | true =>
    simp at h
    cases hp : p i with
    | error e => rw [hp] at h; cases h
    | ok v =>
      obtain ⟨j, a⟩ := v
      rw [hp] at h
      cases h
      rfl

theorem pcount_length {α : Type} (p : Parser α) (n : Nat) :
    ∀ i i' xs, pcount p n i = .ok (i', xs) → xs.length = n := by
  induction n with
  | zero =>
    intro i i' xs h
    rw [pcount] at h
    rw [ppure_ok_iff] at h
    cases h
    rfl
  | succ n ih =>
    intro i i' xs h
    rw [pcount] at h
    rw [Parser.bind_ok_iff] at h
    obtain ⟨j, x, hx, h⟩ := h
    rw [Parser.bind_ok_iff] at h
    obtain ⟨k, ys, hys, h⟩ := h
    rw [ppure_ok_iff] at h
    cases h
    simpa using ih _ _ _ hys

theorem le_u32_shape {i r : List Nat} {v : Nat} (h : le_u32 i = .ok (r, v)) :
    r = i.drop 4 := by
  match i with
  | [] => cases h
  | [_] => cases h
  | [_, _] => cases h
  | [_, _, _] => cases h
  | b0 :: b1 :: b2 :: b3 :: rest =>
    have : le_u32 (b0 :: b1 :: b2 :: b3 :: rest) =
        .ok (rest, b0 + 256 * b1 + 65536 * b2 + 16777216 * b3) := rfl
    rw [this] at h
    cases h
    rfl

example : Mods.fullMask = 0x7FFFFFFF := by decide
example : uleb128 [0xE5, 0x8E, 0x26] = .ok ([], 624485) := by decide
example : uleb128 [0xE5, 0x8E, 0x26, 0x80, 0x81, 0x82] = .ok ([0x80, 0x81, 0x82], 624485) := by
  decide
example : osu_string [0x0b, 0x04, 116, 101, 115, 116, 1, 2, 3] =
    .ok ([1, 2, 3], some [116, 101, 115, 116]) := by decide

/-! ## ULEB128 round-trip -/

theorem ulebEncode_small {n : Nat} (h : n < 128) : ulebEncode n = [n] := by
  rw [ulebEncode]
  simp [h]

theorem ulebEncode_large {n : Nat} (h : ¬ n < 128) :
    ulebEncode n = (n % 128 + 128) :: ulebEncode (n / 128) := by
  rw [ulebEncode]
  simp [h]

theorem high_and_eq {a : Nat} (h : a < 128) : (a + 128) &&& 128 = 128 := by
  show (a + 128) &&& 2 ^ 7 = 2 ^ 7
  rw [Nat.and_two_pow]
  have h7 : (a + 128).testBit 7 = true := by
    rw [Nat.testBit_to_div_mod]
    have hd : (a + 128) / 2 ^ 7 = 1 := by
      show (a + 128) / 128 = 1
      omega
    rw [hd]
    decide
  rw [h7]
  norm_num

theorem low_and_eq {a : Nat} (h : a < 128) : a &&& 128 = 0 := by
  show a &&& 2 ^ 7 = 0
  rw [Nat.and_two_pow, Nat.testBit_lt_two_pow (show a < 2 ^ 7 by omega)]
  norm_num

theorem contP_high {a : Nat} (h : a < 128) : decide (1 < (a + 128) &&& 0x80) = true := by
  rw [high_and_eq h]
  decide

theorem contP_low {a : Nat} (h : a < 128) : decide (1 < a &&& 0x80) = false := by
  rw [low_and_eq h]
  decide

theorem and127 (a : Nat) : a &&& 127 = a % 128 :=
  Nat.and_pow_two_sub_one_eq_mod a 7

theorem lor_mul_two_pow_add {a b k : Nat} (h : a < 2 ^ k) :
    a ||| 2 ^ k * b = 2 ^ k * b + a := by
  apply Nat.eq_of_testBit_eq
  intro j
  rw [Nat.testBit_lor, Nat.testBit_mul_pow_two, Nat.testBit_mul_pow_two_add b h j]
  by_cases hj : j < k
  · have hj' : ¬ (j ≥ k) := by omega
    simp [hj, hj']
  · have hj' : j ≥ k := by omega
    have ha : a.testBit j = false :=
      Nat.testBit_lt_two_pow (lt_of_lt_of_le h (Nat.pow_le_pow_right (by norm_num) (by omega)))
    simp [hj, hj', ha]

theorem ulebValue_encode : ∀ n s : Nat, n * 2 ^ s < 2 ^ 64 →
    ulebValue (ulebEncode n) s = n * 2 ^ s := by
  intro n
  induction n using Nat.strong_induction_on with
  | _ n ih =>
    intro s hs
    by_cases h : n < 128
    · rw [ulebEncode_small h]
      simp only [ulebValue]
      rw [show (0x7F : Nat) = 127 from rfl, and127, Nat.mod_eq_of_lt h, Nat.shiftLeft_eq,
        Nat.mod_eq_of_lt hs, Nat.or_zero]
    · rw [ulebEncode_large h]
      simp only [ulebValue]
      have hm : (n % 128 + 128) &&& 0x7F = n % 128 := by
        rw [show (0x7F : Nat) = 127 from rfl, and127]
        omega
      rw [hm, Nat.shiftLeft_eq]
      have hmod : n % 128 * 2 ^ s ≤ n * 2 ^ s :=
        Nat.mul_le_mul_right _ (Nat.mod_le n 128)
      rw [Nat.mod_eq_of_lt (lt_of_le_of_lt hmod hs)]
      have hpow : (2 : Nat) ^ (s + 7) = 2 ^ s * 128 := by
        rw [pow_add]
        norm_num
      have hdiv : n / 128 * 2 ^ (s + 7) < 2 ^ 64 := by
        apply lt_of_le_of_lt _ hs
        rw [hpow]
        calc n / 128 * (2 ^ s * 128) = n / 128 * 128 * 2 ^ s := by ring
          _ ≤ n * 2 ^ s := Nat.mul_le_mul_right _ (Nat.div_mul_le_self n 128)
      rw [ih (n / 128) (Nat.div_lt_self (by omega) (by norm_num)) (s + 7) hdiv]
      have hlt : n % 128 * 2 ^ s < 2 ^ (s + 7) := by
        rw [hpow]
        have h128 : n % 128 < 128 := Nat.mod_lt _ (by norm_num)
        calc n % 128 * 2 ^ s < 128 * 2 ^ s :=
              Nat.mul_lt_mul_of_lt_of_le h128 (le_refl _) (Nat.two_pow_pos s)
          _ = 2 ^ s * 128 := Nat.mul_comm _ _
      calc n % 128 * 2 ^ s ||| n / 128 * 2 ^ (s + 7)
          = n % 128 * 2 ^ s ||| 2 ^ (s + 7) * (n / 128) := by rw [Nat.mul_comm (n / 128)]
        _ = 2 ^ (s + 7) * (n / 128) + n % 128 * 2 ^ s := lor_mul_two_pow_add hlt
        _ = 2 ^ s * (128 * (n / 128) + n % 128) := by rw [hpow]; ring
        _ = 2 ^ s * n := by rw [Nat.div_add_mod]
        _ = n * 2 ^ s := Nat.mul_comm _ _

theorem uleb_split (n : Nat) : ∀ rest : List Nat, ∃ ts last,
    ulebEncode n = ts ++ [last] ∧
    (ulebEncode n ++ rest).takeWhile (fun byte => decide (1 < byte &&& 0x80)) = ts ∧
    (ulebEncode n ++ rest).dropWhile (fun byte => decide (1 < byte &&& 0x80)) = last :: rest := by
  induction n using Nat.strong_induction_on with
  | _ n ih =>
    intro rest
    by_cases h : n < 128
    · refine ⟨[], n, by simp [ulebEncode_small h], ?_, ?_⟩
      · rw [ulebEncode_small h]
        simp [List.takeWhile_cons, contP_low h]
      · rw [ulebEncode_small h]
        simp [List.dropWhile_cons, contP_low h]
    · obtain ⟨ts', last', henc', htw, hdw⟩ :=
        ih (n / 128) (Nat.div_lt_self (by omega) (by norm_num)) rest
      have hmod : n % 128 < 128 := Nat.mod_lt _ (by norm_num)
      refine ⟨(n % 128 + 128) :: ts', last', ?_, ?_, ?_⟩
      · rw [ulebEncode_large h, henc']
        simp
      · rw [ulebEncode_large h]
        simp only [List.cons_append, List.takeWhile_cons, contP_high hmod, if_true]
        rw [htw]
      · rw [ulebEncode_large h]
        simp only [List.cons_append, List.dropWhile_cons, contP_high hmod, if_true]
        rw [hdw]

theorem uleb128_encode_ok {n : Nat} (hn : n < 2 ^ 64) (rest : List Nat) :
    uleb128 (ulebEncode n ++ rest) = .ok (rest, n) := by
  obtain ⟨ts, last, henc, htw, hdw⟩ := uleb_split n rest
  unfold uleb128
  rw [hdw, htw]
  have hv : ulebValue (ts ++ [last]) 0 = n := by
    rw [← henc]
    have := ulebValue_encode n 0 (by simpa using hn)
    simpa using this
  show Except.ok (rest, ulebValue (ts ++ [last]) 0) = Except.ok (rest, n)
  rw [hv]

/-! ## Claim theorems -/

/-- Claim C5: for every unsigned 64-bit integer `n`, `uleb128` decodes the
ULEB128 encoding of `n` (with any trailing bytes) back to `n`; the bytes
`[0xE5, 0x8E, 0x26]` decode to 624485 with no bytes left over, and an empty
buffer fails with an end-of-input error. -/
theorem c5_uleb128_roundtrip :
    (∀ n : Nat, n < 2 ^ 64 → ∀ rest : List Nat,
      uleb128 (ulebEncode n ++ rest) = .ok (rest, n)) ∧
    uleb128 [0xE5, 0x8E, 0x26] = .ok ([], 624485) ∧
    uleb128 [] = .error .eof := by
  refine ⟨fun n hn rest => uleb128_encode_ok hn rest, by decide, by decide⟩

theorem c5_uleb128_roundtrip_witness :
    (624485 : Nat) < 2 ^ 64 ∧ uleb128 (ulebEncode 624485 ++ []) = .ok ([], 624485) :=
  ⟨by norm_num, c5_uleb128_roundtrip.1 624485 (by norm_num) []⟩

/-- Claim C4: `osu_string` on a first byte `0x00` returns absent consuming
exactly that byte; on `0x0b` it reads a ULEB128 length and then exactly that
many bytes, UTF-8-validated, as a present string (so `[0x0b, 0x00]` is a
present empty string, distinct from absent, and `[0x0b, 0x04] ++ "test"`
leaves trailing bytes unconsumed); invalid UTF-8 is an error, and any other
first byte is an error. -/
theorem c4_osu_string_spec :
    (∀ rest : List Nat, osu_string (0x00 :: rest) = .ok (rest, none)) ∧
    (∀ i i' : List Nat, ∀ len : Nat, uleb128 i = .ok (i', len) → len ≤ i'.length →
      validUtf8 (i'.take len) = true →
      osu_string (0x0b :: i) = .ok (i'.drop len, some (i'.take len))) ∧
    (∀ i i' : List Nat, ∀ len : Nat, uleb128 i = .ok (i', len) → len ≤ i'.length →
      validUtf8 (i'.take len) = false → osu_string (0x0b :: i) = .error .mapResErr) ∧
    osu_string [0x0b, 0x00] = .ok ([], some []) ∧
    some ([] : List Nat) ≠ (none : OsuString) ∧
    osu_string ([0x0b, 0x04] ++ [116, 101, 115, 116] ++ [1, 2, 3]) =
      .ok ([1, 2, 3], some [116, 101, 115, 116]) ∧
    osu_string [0x0b, 0x01, 0x80] = .error .mapResErr ∧
    (∀ b : Nat, ∀ rest : List Nat, b ≠ 0x00 → b ≠ 0x0b →
      osu_string (b :: rest) = .error .failErr) := by
  refine ⟨fun rest => rfl, ?_, ?_, by decide, by decide, by decide, by decide, ?_⟩
  · intro i i' len h hlen hval
    have ht : ptake len i' = .ok (i'.drop len, i'.take len) := by
      unfold ptake
      rw [if_pos hlen]
    show (match uleb128 i with
      | .error e => .error e
      | .ok (i, length) =>
        match ptake length i with
        | .error e => .error e
        | .ok (i, bytes) =>
          if validUtf8 bytes then .ok (i, some bytes) else .error .mapResErr) =
      Except.ok (i'.drop len, some (i'.take len))
    rw [h]
    show (match ptake len i' with
      | .error e => .error e
      | .ok (i, bytes) =>
        if validUtf8 bytes then .ok (i, some bytes) else .error .mapResErr) =
      Except.ok (i'.drop len, some (i'.take len))
    rw [ht]
    simp [hval]
  · intro i i' len h hlen hval
    have ht : ptake len i' = .ok (i'.drop len, i'.take len) := by
      unfold ptake
      rw [if_pos hlen]
    show (match uleb128 i with
      | .error e => .error e
      | .ok (i, length) =>
        match ptake length i with
        | .error e => .error e
        | .ok (i, bytes) =>
          if validUtf8 bytes then .ok (i, some bytes) else .error .mapResErr) =
      Except.error PError.mapResErr
    rw [h]
    show (match ptake len i' with
      | .error e => .error e
      | .ok (i, bytes) =>
        if validUtf8 bytes then .ok (i, some bytes) else .error .mapResErr) =
      Except.error PError.mapResErr
    rw [ht]
    simp [hval]
  · intro b rest h0 h11
    show osu_string (b :: rest) = .error .failErr
    unfold osu_string
    split
    · rename_i heq
      exact absurd heq (List.cons_ne_nil _ _)
    · rename_i heq
      injection heq with hb
      exact absurd hb h0
    · rename_i heq
      injection heq with hb
      exact absurd hb h11
    · rfl

theorem c4_osu_string_spec_witness :
    uleb128 [0x04, 116, 101, 115, 116, 1, 2, 3] = .ok ([116, 101, 115, 116, 1, 2, 3], 4) ∧
    osu_string (0x0b :: [0x04, 116, 101, 115, 116, 1, 2, 3]) =
      .ok ([1, 2, 3], some [116, 101, 115, 116]) :=
  ⟨by decide, c4_osu_string_spec.2.1 [0x04, 116, 101, 115, 116, 1, 2, 3]
    [116, 101, 115, 116, 1, 2, 3] 4 (by decide) (by decide) (by decide)⟩

/-- Claim C3 counterexample: the Mania record with one 300 and one katu
(zeros elsewhere) has accuracy `(305·0 + 300 + 200) / (305·1) · 100 =
10000/61 ≈ 163.9`, outside 0–100: the katu counter feeds the numerator at
weight 200 but is missing from the denominator total. -/
theorem c3_counterexample :
    maniaKatuScore.accuracy = 10000 / 61 ∧ (100 : ℚ) < maniaKatuScore.accuracy := by
  have h : maniaKatuScore.accuracy = 10000 / 61 := by
    simp only [ScoreReplay.accuracy, maniaKatuScore, baseScore]
    norm_num [modsContains, Mods.ScoreV2, Nat.shiftLeft_eq]
  refine ⟨h, ?_⟩
  rw [h]
  norm_num

/-- Claim C3 (amended): for every score record whose mode-relevant counters
have a nonzero sum that stays below 2^16 (so the `u16` denominator addition
neither wraps nor vanishes) and, in Mania, whose katu counter is zero,
`accuracy()` lies in 0–100.  (A Mania record with katu > 0 can exceed 100,
and a record with an all-zero counter total divides by zero — NaN in
`f64`.) -/
theorem c3_accuracy_range_amended :
    ∀ r : ScoreReplay, countersSmall r → countersNonzero r →
      (r.gameplay_mode = .Mania → r.hits_katu = 0) →
      0 ≤ r.accuracy ∧ r.accuracy ≤ 100 := by
  intro r hsm hnz hk
  have c0 : (0 : ℚ) ≤ (r.hits_300 : ℚ) := Nat.cast_nonneg _
  have c1 : (0 : ℚ) ≤ (r.hits_100 : ℚ) := Nat.cast_nonneg _
  have c2 : (0 : ℚ) ≤ (r.hits_50 : ℚ) := Nat.cast_nonneg _
  have c3 : (0 : ℚ) ≤ (r.misses : ℚ) := Nat.cast_nonneg _
  have c4 : (0 : ℚ) ≤ (r.hits_geki : ℚ) := Nat.cast_nonneg _
  cases hm : r.gameplay_mode with
  | Standard =>
    simp only [countersSmall, hm] at hsm
    simp only [countersNonzero, hm] at hnz
    simp only [ScoreReplay.accuracy, hm, Nat.mod_eq_of_lt hsm]
    have hS : (0 : ℚ) < ((r.hits_300 + r.hits_100 + r.hits_50 + r.misses : Nat) : ℚ) := by
      exact_mod_cast hnz
    constructor
    · positivity
    · have hr : (300 * (r.hits_300 : ℚ) + 100 * (r.hits_100 : ℚ) + 50 * (r.hits_50 : ℚ)) /
          (300 * ((r.hits_300 + r.hits_100 + r.hits_50 + r.misses : Nat) : ℚ)) ≤ 1 := by
        rw [div_le_one (by positivity)]
        push_cast
        linarith
      have := mul_le_mul_of_nonneg_right hr (by norm_num : (0 : ℚ) ≤ 100)
      linarith
  | Taiko =>
    simp only [countersSmall, hm] at hsm
    simp only [countersNonzero, hm] at hnz
    simp only [ScoreReplay.accuracy, hm, Nat.mod_eq_of_lt hsm]
    have hS : (0 : ℚ) < ((r.hits_300 + r.hits_100 + r.misses : Nat) : ℚ) := by
      exact_mod_cast hnz
    constructor
    · positivity
    · have hr : ((r.hits_300 : ℚ) + 1 / 2 * (r.hits_100 : ℚ)) /
          ((r.hits_300 + r.hits_100 + r.misses : Nat) : ℚ) ≤ 1 := by
        rw [div_le_one (by positivity)]
        push_cast
        linarith
      have := mul_le_mul_of_nonneg_right hr (by norm_num : (0 : ℚ) ≤ 100)
      linarith
  | Catch =>
    simp only [countersSmall, hm] at hsm
    simp only [countersNonzero, hm] at hnz
    have hsm' : r.hits_300 + r.hits_100 + r.hits_50 < 65536 := by omega
    simp only [ScoreReplay.accuracy, hm, Nat.mod_eq_of_lt hsm, Nat.mod_eq_of_lt hsm']
    have hS : (0 : ℚ) <
        ((r.hits_300 + r.hits_100 + r.hits_50 + r.misses + r.hits_katu : Nat) : ℚ) := by
      exact_mod_cast hnz
    constructor
    · positivity
    · have hr : ((r.hits_300 + r.hits_100 + r.hits_50 : Nat) : ℚ) /
          ((r.hits_300 + r.hits_100 + r.hits_50 + r.misses + r.hits_katu : Nat) : ℚ) ≤ 1 := by
        rw [div_le_one (by positivity)]
        push_cast
        linarith
      have := mul_le_mul_of_nonneg_right hr (by norm_num : (0 : ℚ) ≤ 100)
      linarith
  | Mania =>
    simp only [countersSmall, hm] at hsm
    simp only [countersNonzero, hm] at hnz
    have hk0 : r.hits_katu = 0 := hk hm
    simp only [ScoreReplay.accuracy, hm, Nat.mod_eq_of_lt hsm, hk0]
    have hS : (0 : ℚ) <
        ((r.hits_geki + r.hits_300 + r.hits_100 + r.hits_50 + r.misses : Nat) : ℚ) := by
      exact_mod_cast hnz
    cases hv : modsContains r.mods Mods.ScoreV2 with
    | true =>
      rw [if_pos rfl]
      constructor
      · positivity
      · have hr : (300 * (r.hits_geki : ℚ) + (300 * (r.hits_300 : ℚ) + 200 * ((0 : Nat) : ℚ) +
            100 * (r.hits_100 : ℚ) + 50 * (r.hits_50 : ℚ))) /
            (300 * ((r.hits_geki + r.hits_300 + r.hits_100 + r.hits_50 + r.misses : Nat) : ℚ)) ≤
              1 := by
          rw [div_le_one (by positivity)]
          push_cast
          linarith
        have := mul_le_mul_of_nonneg_right hr (by norm_num : (0 : ℚ) ≤ 100)
        linarith
    | false =>
      rw [if_neg (by simp : ¬ (false = true))]
      constructor
      · positivity
      · have hr : (305 * (r.hits_geki : ℚ) + (300 * (r.hits_300 : ℚ) + 200 * ((0 : Nat) : ℚ) +
            100 * (r.hits_100 : ℚ) + 50 * (r.hits_50 : ℚ))) /
            (305 * ((r.hits_geki + r.hits_300 + r.hits_100 + r.hits_50 + r.misses : Nat) : ℚ)) ≤
              1 := by
          rw [div_le_one (by positivity)]
          push_cast
          linarith
        have := mul_le_mul_of_nonneg_right hr (by norm_num : (0 : ℚ) ≤ 100)
        linarith

theorem c3_accuracy_range_amended_witness :
    0 ≤ stdPerfect.accuracy ∧ stdPerfect.accuracy ≤ 100 :=
  c3_accuracy_range_amended stdPerfect
    (by norm_num [countersSmall, stdPerfect, baseScore])
    (by norm_num [countersNonzero, stdPerfect, baseScore])
    (by decide)

/-! ## Grade structure lemmas -/

theorem promoteSilver_ne_silverSS {g : Grade} (b : Bool) (hgss : g ≠ Grade.SS)
    (hgsil : g ≠ Grade.SilverSS) : promoteSilver g b ≠ Grade.SilverSS := by
  cases g <;> cases b <;>
    first
      | exact absurd rfl hgss
      | exact absurd rfl hgsil
      | simp [promoteSilver]

theorem stdBaseGrade_ne_ss (r : ScoreReplay) :
    stdBaseGrade r ≠ Grade.SS ∧ stdBaseGrade r ≠ Grade.SilverSS := by
  simp only [stdBaseGrade]
  split
  · decide
  · split
    · decide
    · split
      · decide
      · split
        · decide
        · decide

theorem taikoBaseGrade_ne_ss (r : ScoreReplay) :
    taikoBaseGrade r ≠ Grade.SS ∧ taikoBaseGrade r ≠ Grade.SilverSS := by
  simp only [taikoBaseGrade]
  split
  · decide
  · split
    · decide
    · split
      · decide
      · split
        · decide
        · decide

theorem catchBaseGrade_ne_ss (r : ScoreReplay) :
    catchBaseGrade r ≠ Grade.SS ∧ catchBaseGrade r ≠ Grade.SilverSS := by
  simp only [catchBaseGrade]
  split
  · decide
  · split
    · decide
    · split
      · decide
      · split
        · decide
        · decide

theorem maniaBaseGrade_ne_ss (r : ScoreReplay) :
    maniaBaseGrade r ≠ Grade.SS ∧ maniaBaseGrade r ≠ Grade.SilverSS := by
  simp only [maniaBaseGrade]
  split
  · decide
  · split
    · decide
    · split
      · decide
      · split
        · decide
        · decide

/-- The SS arms of `grade` are early returns that bypass the silver
promotion, and no other arm produces `SS`; consequently no record at all is
ever graded `SilverSS` — the `(SS, true) => SilverSS` arm is dead code. -/
theorem grade_ne_silverSS (r : ScoreReplay) : r.grade ≠ Grade.SilverSS := by
  simp only [ScoreReplay.grade]
  cases hm : r.gameplay_mode with
  | Standard =>
    by_cases hc : (decide (r.hits_300 > 0) && (r.hits_100 == 0) && (r.hits_50 == 0) &&
        (r.misses == 0)) = true
    · simp only [if_pos hc]
      show Grade.SS ≠ Grade.SilverSS
      decide
    · simp only [if_neg hc]
      show promoteSilver (stdBaseGrade r) _ ≠ Grade.SilverSS
      exact promoteSilver_ne_silverSS _ (stdBaseGrade_ne_ss r).1 (stdBaseGrade_ne_ss r).2
  | Taiko =>
    by_cases hc : (decide (r.hits_300 > 0) && (r.hits_100 == 0) && (r.misses == 0)) = true
    · simp only [if_pos hc]
      show Grade.SS ≠ Grade.SilverSS
      decide
    · simp only [if_neg hc]
      show promoteSilver (taikoBaseGrade r) _ ≠ Grade.SilverSS
      exact promoteSilver_ne_silverSS _ (taikoBaseGrade_ne_ss r).1 (taikoBaseGrade_ne_ss r).2
  | Catch =>
    by_cases hc : ((r.misses == 0) && (r.hits_katu == 0)) = true
    · simp only [if_pos hc]
      show Grade.SS ≠ Grade.SilverSS
      decide
    · simp only [if_neg hc]
      show promoteSilver (catchBaseGrade r) _ ≠ Grade.SilverSS
      exact promoteSilver_ne_silverSS _ (catchBaseGrade_ne_ss r).1 (catchBaseGrade_ne_ss r).2
  | Mania =>
    by_cases hc : ((r.hits_100 == 0) && (r.hits_50 == 0) && (r.hits_katu == 0) &&
        (r.misses == 0) &&
        ((modsContains r.mods Mods.ScoreV2 && decide (r.hits_geki > 0) && (r.hits_300 == 0)) ||
          (!modsContains r.mods Mods.ScoreV2 && decide (r.hits_geki > 0) ||
            decide (r.hits_300 > 0)))) = true
    · simp only [if_pos hc]
      show Grade.SS ≠ Grade.SilverSS
      decide
    · simp only [if_neg hc]
      show promoteSilver (maniaBaseGrade r) _ ≠ Grade.SilverSS
      exact promoteSilver_ne_silverSS _ (maniaBaseGrade_ne_ss r).1 (maniaBaseGrade_ne_ss r).2

theorem grade_standard_promote {r : ScoreReplay} (hm : r.gameplay_mode = .Standard)
    (hss : (decide (r.hits_300 > 0) && (r.hits_100 == 0) && (r.hits_50 == 0) &&
      (r.misses == 0)) = false) :
    r.grade = promoteSilver (stdBaseGrade r)
      (modsContains r.mods Mods.Hidden || modsContains r.mods Mods.Flashlight ||
        modsContains r.mods Mods.FadeIn) := by
  simp only [ScoreReplay.grade, hm]
  rw [if_neg (by rw [hss]; simp)]

/-- Claim C1 (the code at the divergence point): the Mania record with
ScoreV2, `geki = 1` and `hits_300 = 1` (zeros elsewhere) is graded `SS` by
the code although the claim condition — zeros and
`(ScoreV2: geki>0 & 300==0) or (not ScoreV2: geki>0 or 300>0)` — is false
on it: the source `|| self.hits_300 > 0` disjunct is not confined to the
non-ScoreV2 case (`&&` binds tighter than `||`), contradicting the code
own comment that in ScoreV2 only all-rainbow-300 plays are SS. -/
theorem c1_mania_ss_scorev2_bug :
    maniaV2Mixed.grade = Grade.SS ∧ maniaSSPerSpec maniaV2Mixed = false :=
  ⟨by decide, by decide⟩

/-- Claim C9: a Standard record with `hits_300 > 0` and zero 100/50/miss is
graded `SS` with accuracy exactly 100, with or without Hidden — the claimed
`SS → SilverSS` promotion under Hidden never happens, because the SS arm is
an early `return` that bypasses the promotion (no record is ever graded
`SilverSS`), while `S → SilverS` does happen. -/
theorem c9_standard_ss_silver :
    stdPerfect.grade = Grade.SS ∧ stdPerfect.accuracy = 100 ∧
    stdPerfectHidden.grade = Grade.SS ∧ stdPerfectHidden.accuracy = 100 ∧
    stdNinetyHidden.grade = Grade.SilverS ∧
    ∀ r : ScoreReplay, r.grade ≠ Grade.SilverSS := by
  refine ⟨by decide, ?_, by decide, ?_, ?_, grade_ne_silverSS⟩
  · simp only [ScoreReplay.accuracy, stdPerfect, baseScore]
    norm_num
  · simp only [ScoreReplay.accuracy, stdPerfectHidden, baseScore]
    norm_num
  · rw [grade_standard_promote (by decide) (by decide)]
    have hb : stdBaseGrade stdNinetyHidden = Grade.S := by
      simp only [stdBaseGrade, stdNinetyHidden, baseScore]
      norm_num
    rw [hb]
    decide

theorem c9_standard_ss_silver_witness : stdPerfectHidden.grade ≠ Grade.SilverSS :=
  c9_standard_ss_silver.2.2.2.2.2 stdPerfectHidden

/-- Claim C10: `accuracy` adds the `u16` judgement counters *before*
widening, so its totals are the true sums only while those stay below 2^16;
on a Standard record with 40000 300s and 40000 100s the denominator counter
sum wraps to 14464 and the result (≈ 368.7) differs from the value computed
with the true total (≈ 66.7).  (In overflow-checked builds the addition
panics instead of wrapping.) -/
theorem c10_u16_denominator_wrap :
    (∀ r : ScoreReplay, countersSmall r → r.accuracy = r.accuracySpecTotals) ∧
    bigStd.accuracy = 125000 / 339 ∧ bigStd.accuracySpecTotals = 200 / 3 ∧
    bigStd.accuracySpecTotals < bigStd.accuracy := by
  refine ⟨?_, ?_, ?_, ?_⟩
  · intro r hsm
    cases hm : r.gameplay_mode with
    | Standard =>
      simp only [countersSmall, hm] at hsm
      simp only [ScoreReplay.accuracy, ScoreReplay.accuracySpecTotals, hm,
        Nat.mod_eq_of_lt hsm]
    | Taiko =>
      simp only [countersSmall, hm] at hsm
      simp only [ScoreReplay.accuracy, ScoreReplay.accuracySpecTotals, hm,
        Nat.mod_eq_of_lt hsm]
    | Catch =>
      simp only [countersSmall, hm] at hsm
      have hsm' : r.hits_300 + r.hits_100 + r.hits_50 < 65536 := by omega
      simp only [ScoreReplay.accuracy, ScoreReplay.accuracySpecTotals, hm,
        Nat.mod_eq_of_lt hsm, Nat.mod_eq_of_lt hsm']
    | Mania =>
      simp only [countersSmall, hm] at hsm
      simp only [ScoreReplay.accuracy, ScoreReplay.accuracySpecTotals, hm,
        Nat.mod_eq_of_lt hsm]
  · simp only [ScoreReplay.accuracy, bigStd, baseScore]
    norm_num
  · simp only [ScoreReplay.accuracySpecTotals, bigStd, baseScore]
    norm_num
  · have h1 : bigStd.accuracy = 125000 / 339 := by
      simp only [ScoreReplay.accuracy, bigStd, baseScore]
      norm_num
    have h2 : bigStd.accuracySpecTotals = 200 / 3 := by
      simp only [ScoreReplay.accuracySpecTotals, bigStd, baseScore]
      norm_num
    rw [h1, h2]
    norm_num

theorem c10_u16_denominator_wrap_witness :
    stdPerfect.accuracy = stdPerfect.accuracySpecTotals :=
  c10_u16_denominator_wrap.1 stdPerfect (by norm_num [countersSmall, stdPerfect, baseScore])

theorem pcond_true_ok {α : Type} {p : Parser α} {i i' : List Nat} {x : Option α}
    (h : pcond true p i = .ok (i', x)) : ∃ a, p i = .ok (i', a) ∧ x = some a := by
  unfold pcond at h
  simp only [if_pos rfl] at h
  cases hp : p i with
  | error e => rw [hp] at h; cases h
  | ok v =>
    obtain ⟨j, a⟩ := v
    rw [hp] at h
    cases h
    exact ⟨a, rfl, rfl⟩

theorem pcond_false_ok {α : Type} {p : Parser α} {i i' : List Nat} {x : Option α}
    (h : pcond false p i = .ok (i', x)) : i' = i ∧ x = none := by
  unfold pcond at h
  simp only [Bool.false_eq_true, if_neg] at h
  cases h
  exact ⟨rfl, rfl⟩

set_option maxHeartbeats 1000000 in
/-- Claim C6: for every successful `replay_blob` step, the blob is absent
exactly when the declared `u32` length was the `0xFFFFFFFF` sentinel, and a
declared length of 0 yields a present-but-empty blob; every successfully
decoded score record `replay_data` comes from such a step, and the two
concrete record buffers (sentinel length vs. length 0) decode to records
distinguishing `none` from `some []`. -/
theorem c6_replay_blob_sentinel :
    (∀ i i' : List Nat, ∀ blob : Option (List Nat), replay_blob i = .ok (i', blob) →
      ∃ j len, le_u32 i = .ok (j, len) ∧ (blob = none ↔ len = 0xFFFFFFFF) ∧
        (len = 0 → blob = some [])) ∧
    (∀ input i' : List Nat, ∀ r : ScoreReplay, score_replay input = .ok (i', r) →
      ∃ j j' : List Nat, replay_blob j = .ok (j', r.replay_data)) ∧
    score_replay scoreBufSentinel = .ok ([], stdPerfect) ∧
    stdPerfect.replay_data = none ∧
    score_replay scoreBufZeroBlob = .ok ([], stdPerfectEmptyBlob) ∧
    stdPerfectEmptyBlob.replay_data = some [] ∧
    some ([] : List Nat) ≠ (none : Option (List Nat)) := by
  refine ⟨?_, ?_, by decide, by decide, by decide, by decide, by decide⟩
  · intro i i' blob h
    simp only [replay_blob, Parser.bind_ok_iff] at h
    obtain ⟨j, len, hle, hc⟩ := h
    refine ⟨j, len, hle, ?_, ?_⟩
    · by_cases hlen : len = 0xFFFFFFFF
      · have hb : (len != 0xFFFFFFFF) = false := by simp [hlen]
        rw [hb] at hc
        obtain ⟨-, hnone⟩ := pcond_false_ok hc
        simp [hnone, hlen]
      · have hb : (len != 0xFFFFFFFF) = true := by simp [hlen]
        rw [hb] at hc
        obtain ⟨bs, -, hsome⟩ := pcond_true_ok hc
        simp [hsome, hlen]
    · intro h0
      subst h0
      have hb : ((0 : Nat) != 0xFFFFFFFF) = true := by decide
      rw [hb] at hc
      obtain ⟨bs, hp, hsome⟩ := pcond_true_ok hc
      have ht : ptake 0 j = .ok (j, []) := by
        unfold ptake
        simp
      rw [ht] at hp
      cases hp
      simpa using hsome
  · intro input i' r h
    simp only [score_replay, Parser.bind_ok_iff, ppure_ok_iff] at h
    obtain ⟨j1, gm, h1, j2, ver, h2, j3, bm, h3, j4, pn, h4, j5, rm, h5, j6, a300, h6,
      j7, a100, h7, j8, a50, h8, j9, geki, h9, j10, katu, h10, j11, mis, h11, j12, sc, h12,
      j13, mc, h13, j14, pc, h14, j15, mods, h15, j16, lg, h16, j17, ts, h17, j18, rd, h18,
      j19, osid, h19, j20, ami, h20, hfin⟩ := h
    rw [Prod.mk.injEq] at hfin
    obtain ⟨hi, hr⟩ := hfin
    subst hr
    exact ⟨j17, j18, h18⟩

theorem c6_replay_blob_sentinel_witness :
    (none : Option (List Nat)) = none ↔ (0xFFFFFFFF : Nat) = 0xFFFFFFFF := by
  obtain ⟨j, len, hle, hiff, -⟩ :=
    c6_replay_blob_sentinel.1 [0xFF, 0xFF, 0xFF, 0xFF] [] none (by decide)
  have hval : le_u32 [0xFF, 0xFF, 0xFF, 0xFF] = .ok ([], 0xFFFFFFFF) := by decide
  rw [hval] at hle
  injection hle with hpair
  rw [Prod.mk.injEq] at hpair
  obtain ⟨hj, hlen⟩ := hpair
  subst hlen
  exact hiff

set_option maxHeartbeats 1000000 in
/-- Claim C7: for every successfully decoded score record, the trailing
accuracy supplement `additional_mod_info` is present exactly when the
TargetPractice bit is set in the record decoded modifier set; the two
concrete buffers (with and without the bit) exhibit both sides. -/
theorem c7_target_practice_iff :
    (∀ input i' : List Nat, ∀ r : ScoreReplay, score_replay input = .ok (i', r) →
      r.additional_mod_info.isSome = modsContains r.mods Mods.TargetPractice) ∧
    score_replay scoreBufTP = .ok ([], stdPerfectTP) ∧
    stdPerfectTP.additional_mod_info = some 0 ∧
    score_replay scoreBufSentinel = .ok ([], stdPerfect) ∧
    stdPerfect.additional_mod_info = none := by
  refine ⟨?_, by decide, by decide, by decide, by decide⟩
  intro input i' r h
  simp only [score_replay, Parser.bind_ok_iff, ppure_ok_iff] at h
  obtain ⟨j1, gm, h1, j2, ver, h2, j3, bm, h3, j4, pn, h4, j5, rm, h5, j6, a300, h6,
    j7, a100, h7, j8, a50, h8, j9, geki, h9, j10, katu, h10, j11, mis, h11, j12, sc, h12,
    j13, mc, h13, j14, pc, h14, j15, mods, h15, j16, lg, h16, j17, ts, h17, j18, rd, h18,
    j19, osid, h19, j20, ami, h20, hfin⟩ := h
  rw [Prod.mk.injEq] at hfin
  obtain ⟨hi, hr⟩ := hfin
  subst hr
  show ami.isSome = modsContains mods Mods.TargetPractice
  exact pcond_isSome h20

theorem c7_target_practice_iff_witness :
    stdPerfectTP.additional_mod_info.isSome = modsContains stdPerfectTP.mods Mods.TargetPractice :=
  c7_target_practice_iff.1 scoreBufTP [] stdPerfectTP (by decide)


set_option maxHeartbeats 4000000 in
set_option maxRecDepth 8192 in
theorem beatmap_entry_size_iff (version : Nat) (i i' : List Nat) (e : BeatmapEntry)
    (h : beatmap_entry version i = .ok (i', e)) :
    e.size.isSome = decide (version < 20191106) := by
  unfold beatmap_entry at h
  obtain ⟨k1, size, e1, h⟩ := Parser.bind_ok_iff.mp h
  obtain ⟨_, _, _, h⟩ := Parser.bind_ok_iff.mp h
  obtain ⟨_, _, _, h⟩ := Parser.bind_ok_iff.mp h
  obtain ⟨_, _, _, h⟩ := Parser.bind_ok_iff.mp h
  obtain ⟨_, _, _, h⟩ := Parser.bind_ok_iff.mp h
  obtain ⟨_, _, _, h⟩ := Parser.bind_ok_iff.mp h
  obtain ⟨_, _, _, h⟩ := Parser.bind_ok_iff.mp h
  obtain ⟨_, _, _, h⟩ := Parser.bind_ok_iff.mp h
  obtain ⟨_, _, _, h⟩ := Parser.bind_ok_iff.mp h
  obtain ⟨_, _, _, h⟩ := Parser.bind_ok_iff.mp h
  obtain ⟨_, _, _, h⟩ := Parser.bind_ok_iff.mp h
  obtain ⟨_, _, _, h⟩ := Parser.bind_ok_iff.mp h
  obtain ⟨_, _, _, h⟩ := Parser.bind_ok_iff.mp h
  obtain ⟨_, _, _, h⟩ := Parser.bind_ok_iff.mp h
  obtain ⟨_, _, _, h⟩ := Parser.bind_ok_iff.mp h
  obtain ⟨_, _, _, h⟩ := Parser.bind_ok_iff.mp h
  obtain ⟨_, _, _, h⟩ := Parser.bind_ok_iff.mp h
  obtain ⟨_, _, _, h⟩ := Parser.bind_ok_iff.mp h
  obtain ⟨_, _, _, h⟩ := Parser.bind_ok_iff.mp h
  obtain ⟨_, _, _, h⟩ := Parser.bind_ok_iff.mp h
  obtain ⟨_, _, _, h⟩ := Parser.bind_ok_iff.mp h
  obtain ⟨_, _, _, h⟩ := Parser.bind_ok_iff.mp h
  obtain ⟨_, _, _, h⟩ := Parser.bind_ok_iff.mp h
  obtain ⟨_, _, _, h⟩ := Parser.bind_ok_iff.mp h
  obtain ⟨_, _, _, h⟩ := Parser.bind_ok_iff.mp h
  obtain ⟨_, _, _, h⟩ := Parser.bind_ok_iff.mp h
  obtain ⟨_, _, _, h⟩ := Parser.bind_ok_iff.mp h
  obtain ⟨_, _, _, h⟩ := Parser.bind_ok_iff.mp h
  obtain ⟨_, _, _, h⟩ := Parser.bind_ok_iff.mp h
  obtain ⟨_, _, _, h⟩ := Parser.bind_ok_iff.mp h
  obtain ⟨_, _, _, h⟩ := Parser.bind_ok_iff.mp h
  obtain ⟨_, _, _, h⟩ := Parser.bind_ok_iff.mp h
  obtain ⟨_, _, _, h⟩ := Parser.bind_ok_iff.mp h
  obtain ⟨_, _, _, h⟩ := Parser.bind_ok_iff.mp h
  obtain ⟨_, _, _, h⟩ := Parser.bind_ok_iff.mp h
  obtain ⟨_, _, _, h⟩ := Parser.bind_ok_iff.mp h
  obtain ⟨_, _, _, h⟩ := Parser.bind_ok_iff.mp h
  obtain ⟨_, _, _, h⟩ := Parser.bind_ok_iff.mp h
  obtain ⟨_, _, _, h⟩ := Parser.bind_ok_iff.mp h
  obtain ⟨_, _, _, h⟩ := Parser.bind_ok_iff.mp h
  obtain ⟨_, _, _, h⟩ := Parser.bind_ok_iff.mp h
  obtain ⟨_, _, _, h⟩ := Parser.bind_ok_iff.mp h
  obtain ⟨_, _, _, h⟩ := Parser.bind_ok_iff.mp h
  obtain ⟨_, _, _, h⟩ := Parser.bind_ok_iff.mp h
  obtain ⟨_, _, _, h⟩ := Parser.bind_ok_iff.mp h
  obtain ⟨_, _, _, h⟩ := Parser.bind_ok_iff.mp h
  obtain ⟨_, _, _, h⟩ := Parser.bind_ok_iff.mp h
  obtain ⟨_, _, _, h⟩ := Parser.bind_ok_iff.mp h
  obtain ⟨_, _, _, h⟩ := Parser.bind_ok_iff.mp h
  obtain ⟨_, _, _, h⟩ := Parser.bind_ok_iff.mp h
  obtain ⟨_, _, _, h⟩ := Parser.bind_ok_iff.mp h
  obtain ⟨_, _, _, h⟩ := Parser.bind_ok_iff.mp h
  obtain ⟨_, _, _, h⟩ := Parser.bind_ok_iff.mp h
  obtain ⟨_, _, _, h⟩ := Parser.bind_ok_iff.mp h
  rw [ppure_ok_iff] at h
  rw [Prod.mk.injEq] at h
  obtain ⟨hi, he⟩ := h
  subst he
  show size.isSome = decide (version < 20191106)
  exact pcond_isSome e1

/-- Claim C8: in `beatmap_entry`, the per-entry size field is decoded (as a
`u32`) exactly when the listing version is below 20191106 and absent
otherwise; the two concrete entry buffers show the four difficulty
statistics read as one byte each, converted to floating point
(`byteToF32bits`), below version 20140609, and as raw little-endian 32-bit
floats at version 20191106. -/
theorem c8_version_gated_fields :
    (∀ version : Nat, ∀ i i' : List Nat, ∀ e : BeatmapEntry,
      beatmap_entry version i = .ok (i', e) →
      e.size.isSome = decide (version < 20191106)) ∧
    entryView (beatmap_entry 20140608 oldEntryBuf) =
      some ([], some 57, byteToF32bits 7, byteToF32bits 8, byteToF32bits 5, byteToF32bits 6) ∧
    entryView (beatmap_entry 20191106 newEntryBuf) =
      some ([], none, 1077936128, 1065353216, 1084227584, 1086324736) :=
  ⟨beatmap_entry_size_iff, by decide, by decide⟩

theorem c8_version_gated_fields_witness :
    beatmap_entry 20191106 newEntryBuf = .ok ([], newEntryRec) ∧
    newEntryRec.size.isSome = decide ((20191106 : Nat) < 20191106) :=
  ⟨by decide, c8_version_gated_fields.1 20191106 newEntryBuf [] newEntryRec (by decide)⟩

/-- Claim C2 counterexample: a buffer holding a complete collection listing
(version 0, zero collections) followed by a leftover byte `0xAA` decodes
successfully — the entry point discards the unconsumed rest rather than
failing, contrary to the claim that leftover bytes are an error. -/
theorem c2_leftover_counterexample :
    CollectionListing.from_bytes leftoverBuf = .ok { version := 0, collections := [] } ∧
    collection_listing leftoverBuf = .ok ([0xAA], { version := 0, collections := [] }) := by
  constructor
  · decide
  · decide

/-- Claim C2 (amended): every count-prefixed array decodes exactly its
declared number of entries (`pcount` produces lists of exactly the declared
length, and the decoded list length of each listing equals the count it read);
insufficient bytes for a declared count is an error; but leftover bytes
after the declared structure are accepted, the entry points discarding the
unconsumed rest. -/
theorem c2_entry_counts_amended :
    (∀ (α : Type) (p : Parser α) (n : Nat) (i i' : List Nat) (xs : List α),
      pcount p n i = .ok (i', xs) → xs.length = n) ∧
    (∀ i i' : List Nat, ∀ l : CollectionListing, collection_listing i = .ok (i', l) →
      le_u32 (i.drop 4) = .ok (i.drop 8, l.collections.length)) ∧
    (∀ i i' : List Nat, ∀ l : ScoreListing, score_listing i = .ok (i', l) →
      le_u32 (i.drop 4) = .ok (i.drop 8, l.beatmap_scores.length)) ∧
    (∀ i i' : List Nat, ∀ l : BeatmapListing, beatmap_listing i = .ok (i', l) →
      ∃ j j' rest : List Nat, le_u32 j = .ok (j', l.beatmaps.length) ∧
        pcount (beatmap_entry l.version) l.beatmaps.length j' = .ok (rest, l.beatmaps)) ∧
    collection_listing insufficientBuf = .error .eof ∧
    (∀ i i' : List Nat, ∀ l : CollectionListing, collection_listing i = .ok (i', l) →
      CollectionListing.from_bytes i = .ok l) ∧
    CollectionListing.from_bytes leftoverBuf = .ok { version := 0, collections := [] } := by
  refine ⟨fun α p n i i' xs h => pcount_length p n i i' xs h, ?_, ?_, ?_, by decide, ?_,
    by decide⟩
  · intro i i' l h
    simp only [collection_listing, plength_count, Parser.bind_ok_iff, ppure_ok_iff] at h
    obtain ⟨j1, ver, h1, j2, cs, ⟨jc, n, h2, h3⟩, hfin⟩ := h
    rw [Prod.mk.injEq] at hfin
    obtain ⟨hi, hl⟩ := hfin
    subst hl
    have e1 : j1 = i.drop 4 := le_u32_shape h1
    have e2 : jc = j1.drop 4 := le_u32_shape h2
    have hn : cs.length = n := pcount_length _ _ _ _ _ h3
    subst e1
    show le_u32 (i.drop 4) = .ok (i.drop 8, cs.length)
    rw [hn, h2, e2, List.drop_drop]
  · intro i i' l h
    simp only [score_listing, plength_count, Parser.bind_ok_iff, ppure_ok_iff] at h
    obtain ⟨j1, ver, h1, j2, cs, ⟨jc, n, h2, h3⟩, hfin⟩ := h
    rw [Prod.mk.injEq] at hfin
    obtain ⟨hi, hl⟩ := hfin
    subst hl
    have e1 : j1 = i.drop 4 := le_u32_shape h1
    have e2 : jc = j1.drop 4 := le_u32_shape h2
    have hn : cs.length = n := pcount_length _ _ _ _ _ h3
    subst e1
    show le_u32 (i.drop 4) = .ok (i.drop 8, cs.length)
    rw [hn, h2, e2, List.drop_drop]
  · intro i i' l h
    simp only [beatmap_listing, plength_count, Parser.bind_ok_iff, ppure_ok_iff] at h
    obtain ⟨j1, ver, h1, j2, fc, h2, j3, au, h3, j4, ad, h4, j5, pn, h5, j6, bms,
      ⟨jc, n, h6, h7⟩, j8, up, h8, hfin⟩ := h
    rw [Prod.mk.injEq] at hfin
    obtain ⟨hi, hl⟩ := hfin
    subst hl
    have hn : bms.length = n := pcount_length _ _ _ _ _ h7
    show ∃ j j' rest : List Nat, le_u32 j = .ok (j', bms.length) ∧
      pcount (beatmap_entry ver) bms.length j' = .ok (rest, bms)
    rw [hn]
    exact ⟨j5, jc, j6, h6, h7⟩
  · intro i i' l h
    unfold CollectionListing.from_bytes
    rw [h]

theorem c2_entry_counts_amended_witness :
    le_u32 (([0, 0, 0, 0, 1, 0, 0, 0, 0, 0, 0, 0, 0] : List Nat).drop 4) =
      .ok (([0, 0, 0, 0, 1, 0, 0, 0, 0, 0, 0, 0, 0] : List Nat).drop 8, 1) ∧
    CollectionListing.from_bytes [0, 0, 0, 0, 0, 0, 0, 0] = .ok { version := 0, collections := [] } :=
  ⟨c2_entry_counts_amended.2.1 [0, 0, 0, 0, 1, 0, 0, 0, 0, 0, 0, 0, 0] []
      { version := 0, collections := [{ name := none, beatmap_md5s := [] }] } (by decide),
    c2_entry_counts_amended.2.2.2.2.2.1 [0, 0, 0, 0, 0, 0, 0, 0] []
      { version := 0, collections := [] } (by decide)⟩
